import Mathlib

/-!
Day 1 (`day1/main.go`): report repair.

A shallow embedding of the Go program `day1/main.go` and proofs about it.

* Go `int` values are modelled as `Int`.  Every arithmetic result passes
  through a normalisation function `norm`: `id` gives exact integer
  arithmetic, `wrap64` gives Go's 64-bit two's-complement wraparound.
* The text written to standard output is a `String`.
* A slice index outside `0 ≤ i < len(data)` is a runtime panic, which is
  an explicit outcome here.
* Go `for` loops are recursive functions that test the loop condition of
  the source on every iteration; a fuel argument only makes the recursion
  structural, and the theorems show that the fuel supplied never runs out.
* `os.Open` and `fmt.Fscanf` are parameters of `readData`; `fscanfInt` is the
  scanner of Go's standard library on the runes of a file.
* `readData` also yields the state in which it leaves the file it opened;
  `Handle` makes that state record whether the file is still open.
-/

namespace Day1

/-! ## Outcomes -/

/-- How the run of a Go function ends. -/
inductive Outcome where
  /-- The function returned normally, having written `out` to standard output. -/
  | returned (out : String)
  /-- The runtime panicked on the slice index `idx` (index out of range). -/
  | panicked (idx : Int)
  /-- The fuel of the model ran out (no counterpart in the program). -/
  | outOfFuel
  deriving DecidableEq, Repr

/-- Go's `data[i]` on a slice: `none` stands for the out-of-range panic. -/
def index (data : List Int) (i : Int) : Option Int :=
  if 0 ≤ i then data[i.toNat]? else none

/-- Go's `len(data)` as a signed `int`. -/
def len (data : List Int) : Int := (data.length : Int)

/-- Two's-complement wraparound of an integer to 64 bits (Go `int` on 64-bit targets). -/
def wrap64 (x : Int) : Int := (x + 2 ^ 63) % 2 ^ 64 - 2 ^ 63

/-! ## `solve1` -/

/-- The inner loop of `solve1`: `for j := ...; j < len(data); j++ { ... }` at a fixed `i`.
`none` means the loop ran to completion; `some o` means `solve1` ended with `o`. -/
def solve1LoopJ (norm : Int → Int) (data : List Int) (i : Int) : Nat → Int → Option Outcome
  | 0, _ => some Outcome.outOfFuel
  | fuel + 1, j =>
    if j < len data then
      match index data i, index data j with
      | some a, some b =>
        if norm (a + b) = 2020 then
          some (Outcome.returned ("Answer1: " ++ toString (norm (a * b)) ++ "\n"))
        else solve1LoopJ norm data i fuel (j + 1)
      | none, _ => some (Outcome.panicked i)
      | some _, none => some (Outcome.panicked j)
    else none

/-- The outer loop of `solve1`: `for i := ...; i < len(data) - 1; i++ { ... }`. -/
def solve1LoopI (norm : Int → Int) (data : List Int) : Nat → Int → Option Outcome
  | 0, _ => some Outcome.outOfFuel
  | fuel + 1, i =>
    if i < len data - 1 then
      match solve1LoopJ norm data i (data.length + 1) (i + 1) with
      | some o => some o
      | none => solve1LoopI norm data fuel (i + 1)
    else none

/-- The function `solve1` under the arithmetic given by `norm`. -/
def solve1Arith (norm : Int → Int) (data : List Int) : Outcome :=
  match solve1LoopI norm data (data.length + 1) 0 with
  | some o => o
  | none => Outcome.returned "Could not find 2 numbers that sum up to 2020\n"

/-- The function `solve1` in exact integer arithmetic. -/
def solve1 (data : List Int) : Outcome := solve1Arith id data

/-! ## `solve2` -/

/-- The innermost loop of `solve2`: `for k := ...; k < len(data); k++ { ... }`. -/
def solve2LoopK (norm : Int → Int) (data : List Int) (i j : Int) : Nat → Int → Option Outcome
  | 0, _ => some Outcome.outOfFuel
  | fuel + 1, k =>
    if k < len data then
      match index data i, index data j, index data k with
      | some a, some b, some c =>
        if norm (norm (a + b) + c) = 2020 then
          some (Outcome.returned ("Answer2: " ++ toString (norm (norm (a * b) * c)) ++ "\n"))
        else solve2LoopK norm data i j fuel (k + 1)
      | none, _, _ => some (Outcome.panicked i)
      | some _, none, _ => some (Outcome.panicked j)
      | some _, some _, none => some (Outcome.panicked k)
    else none

/-- The middle loop of `solve2`: `for j := ...; j < len(data) - 1; j++ { ... }`. -/
def solve2LoopJ (norm : Int → Int) (data : List Int) (i : Int) : Nat → Int → Option Outcome
  | 0, _ => some Outcome.outOfFuel
  | fuel + 1, j =>
    if j < len data - 1 then
      match solve2LoopK norm data i j (data.length + 1) (j + 1) with
      | some o => some o
      | none => solve2LoopJ norm data i fuel (j + 1)
    else none

/-- The outer loop of `solve2`: `for i := ...; i < len(data) - 2; i++ { ... }`. -/
def solve2LoopI (norm : Int → Int) (data : List Int) : Nat → Int → Option Outcome
  | 0, _ => some Outcome.outOfFuel
  | fuel + 1, i =>
    if i < len data - 2 then
      match solve2LoopJ norm data i (data.length + 1) (i + 1) with
      | some o => some o
      | none => solve2LoopI norm data fuel (i + 1)
    else none

/-- The function `solve2` under the arithmetic given by `norm`. -/
def solve2Arith (norm : Int → Int) (data : List Int) : Outcome :=
  match solve2LoopI norm data (data.length + 1) 0 with
  | some o => o
  | none => Outcome.returned "Could not find 3 numbers that sum up to 2020\n"

/-- The function `solve2` in exact integer arithmetic. -/
def solve2 (data : List Int) : Outcome := solve2Arith id data

/-! ## `readData` -/

/-- What one call `fmt.Fscanf(f, "%d", &n)` yields. -/
inductive ScanResult where
  /-- The call returned a nil error and stored `n`. -/
  | value (n : Int)
  /-- The call returned an error `err` for which `errors.Is(err, io.EOF)` holds. -/
  | eof
  /-- The call returned any other error; `msg` is its description `err.Error()`. -/
  | failure (msg : String)
  deriving DecidableEq, Repr

/-- The pair `([]int, error)` that `readData` returns: `data = none` is the nil slice,
`err = none` is the nil error, and an error is represented by its description. -/
structure ReadResult where
  data : Option (List Int)
  err : Option String
  deriving DecidableEq, Repr

/-- The `for { ... }` loop of `readData` on the open file `f`, with `data` the slice built
so far.  `fscanf` is one call `fmt.Fscanf(f, "%d", &n)`: it yields a result and leaves the
file in a new state.  The loop returns the pair `readData` returns together with the state
in which it leaves the file; `none` means the fuel of the model ran out. -/
def readLoop {σ : Type} (fscanf : σ → ScanResult × σ) :
    Nat → σ → List Int → Option (ReadResult × σ)
  | 0, _, _ => none
  | fuel + 1, f, data =>
    match fscanf f with
    | (ScanResult.eof, f') => some (⟨some data, none⟩, f')
    | (ScanResult.failure msg, f') => some (⟨none, some msg⟩, f')
    | (ScanResult.value n, f') => readLoop fscanf fuel f' (data ++ [n])

/-- The function `readData`.  `osOpen` is `os.Open`: it yields the description of an error
or an open file.  The result pairs what `readData` returns with the state in which it
leaves the file it opened (`none` when nothing was opened). -/
def readData {σ : Type} (osOpen : String → Except String σ) (fscanf : σ → ScanResult × σ)
    (fuel : Nat) (filename : String) : Option (ReadResult × Option σ) :=
  match osOpen filename with
  | Except.error e => some (⟨none, some e⟩, none)
  | Except.ok f =>
    match readLoop fscanf fuel f [] with
    | some (r, f') => some (r, some f')
    | none => none

/-- The state of the file before the `k`-th call of `fscanf` (counting from 0). -/
def fileBefore {σ : Type} (fscanf : σ → ScanResult × σ) (f : σ) : Nat → σ
  | 0 => f
  | k + 1 => (fscanf (fileBefore fscanf f k)).2

/-- The result of the `k`-th call of `fscanf` (counting from 0) on a file opened as `f`. -/
def scanAt {σ : Type} (fscanf : σ → ScanResult × σ) (f : σ) (k : Nat) : ScanResult :=
  (fscanf (fileBefore fscanf f k)).1

/-- The scan results `5, 7`, then a parse error, then end of file. -/
def sampleScans (k : Nat) : ScanResult :=
  match k with
  | 0 => ScanResult.value 5
  | 1 => ScanResult.value 7
  | 2 => ScanResult.failure "expected integer"
  | _ => ScanResult.eof

/-! ## `fmt.Fscanf(f, "%d", &n)` on an `*os.File`

`readData` hands the `*os.File` itself to `fmt.Fscanf`.  The scanner is part of Go's
standard library (`fmt/scan.go`), not of this program; the definitions below follow it for
the format `"%d"`, an `*int` operand and a reader without `UnreadRune`, which an `*os.File`
is.  For such a reader every call of `Fscanf` reads rune by rune through a fresh one-rune
buffer: a rune it reads and pushes back is lost when the call returns.  The file is the
list of its runes not yet read. -/

/-- The runes `fmt` counts as space (`isSpace` of `fmt/scan.go`). -/
def isSpace (c : Char) : Bool :=
  (0x0009 ≤ c.toNat && c.toNat ≤ 0x000d) || c.toNat == 0x0020 || c.toNat == 0x0085 ||
  c.toNat == 0x00a0 || c.toNat == 0x1680 || (0x2000 ≤ c.toNat && c.toNat ≤ 0x200a) ||
  (0x2028 ≤ c.toNat && c.toNat ≤ 0x2029) || c.toNat == 0x202f || c.toNat == 0x205f ||
  c.toNat == 0x3000

/-- The method `(*ss).SkipSpace` as `Fscanf` runs it (a newline is not space): the error
it raises, if any, and the runes left unread. -/
def skipSpace : List Char → Option String × List Char
  | [] => (none, [])
  | c :: rest =>
    if c = '\n' then (some "unexpected newline", rest)
    else if isSpace c then skipSpace rest
    else (none, c :: rest)

/-- The number written by a run of decimal digits. -/
def digitsValue (ds : List Char) : Nat :=
  ds.foldl (fun acc d => 10 * acc + (d.toNat - 48)) 0

/-- The range of a 64-bit signed integer. -/
def inInt64 (v : Int) : Prop := -2 ^ 63 ≤ v ∧ v < 2 ^ 63

instance (v : Int) : Decidable (inInt64 v) := by
  unfold inInt64
  exact inferInstance

/-- The call `strconv.ParseInt(tok, 10, 64)` on a token made of an optional sign and at
least one decimal digit, which is all that `(*ss).scanInt` passes to it. -/
def parseInt (tok : List Char) : Except String Int :=
  let v : Int :=
    match tok with
    | [] => 0
    | c :: ds =>
      if c = '-' then -(digitsValue ds : Int)
      else if c = '+' then (digitsValue ds : Int)
      else (digitsValue (c :: ds) : Int)
  if inInt64 v then Except.ok v
  else Except.error ("strconv.ParseInt: parsing " ++ String.quote (String.mk tok) ++
    ": value out of range")

/-- One call `fmt.Fscanf(f, "%d", &n)` on an `*os.File` whose unread runes are `input`:
`doScanf` skips space, `scanInt` fails with `io.EOF` at the end of the input, accepts a
sign, demands a digit, takes the digits that follow and parses them.  The rune that ends
the digits has been read too, and is lost. -/
def fscanfInt (input : List Char) : ScanResult × List Char :=
  match skipSpace input with
  | (some msg, rest) => (ScanResult.failure msg, rest)
  | (none, []) => (ScanResult.eof, [])
  | (none, c :: rest) =>
    let sign : List Char := if c = '+' ∨ c = '-' then [c] else []
    let body : List Char := if c = '+' ∨ c = '-' then rest else c :: rest
    match body with
    | [] => (ScanResult.eof, [])
    | d :: rest' =>
      if d.isDigit then
        let tok := sign ++ (d :: rest').takeWhile Char.isDigit
        let unread := ((d :: rest').dropWhile Char.isDigit).drop 1
        match parseInt tok with
        | Except.ok v => (ScanResult.value v, unread)
        | Except.error msg => (ScanResult.failure msg, unread)
      else (ScanResult.failure "expected integer", rest')

/-- Space that `Fscanf` skips in front of a number: space runes other than the newline. -/
def IsPad (ws : List Char) : Prop := ∀ c ∈ ws, isSpace c = true ∧ c ≠ '\n'

/-- A separator after a number that the reading loop gets past: exactly one space rune (a
space or a newline, say), then possibly more space without a newline. -/
def IsGap (g : List Char) : Prop := ∃ w ws, g = w :: ws ∧ isSpace w = true ∧ IsPad ws

/-- A signed decimal numeral: an optional sign `+` or `-`, then at least one decimal
digit. -/
def IsNumeral (tok : List Char) : Prop :=
  ∃ sign digits : List Char, tok = sign ++ digits ∧
    (sign = [] ∨ sign = ['+'] ∨ sign = ['-']) ∧ digits ≠ [] ∧ ∀ c ∈ digits, c.isDigit = true

/-- The integer that a signed decimal numeral writes. -/
def numeralValue (tok : List Char) : Int :=
  match tok with
  | [] => 0
  | c :: ds =>
    if c = '-' then -(digitsValue ds : Int)
    else if c = '+' then (digitsValue ds : Int)
    else (digitsValue (c :: ds) : Int)

/-- The text of a file given as its numerals, each followed by the text that separates it
from the next. -/
def fileText : List (List Char × List Char) → List Char
  | [] => []
  | (tok, g) :: rest => tok ++ g ++ fileText rest

/-- Every entry is a signed decimal numeral of a 64-bit integer, followed by a separator
the loop gets past; the last numeral may also end the file. -/
def WellSpaced : List (List Char × List Char) → Prop
  | [] => True
  | (tok, g) :: rest =>
    IsNumeral tok ∧ inInt64 (numeralValue tok) ∧ (IsGap g ∨ (g = [] ∧ rest = [])) ∧
      WellSpaced rest

/-! ## `main` -/

/-- Run `first`, and if it returns normally run `second`, appending what it prints. -/
def Outcome.andThen (first second : Outcome) : Outcome :=
  match first with
  | Outcome.returned out1 =>
    match second with
    | Outcome.returned out2 => Outcome.returned (out1 ++ out2)
    | o => o
  | o => o

/-- The body of `main` after the call `data, err := readData("data1.txt")`. -/
def mainAfterRead (norm : Int → Int) (r : ReadResult) : Outcome :=
  match r.err with
  | some e => Outcome.returned (e ++ "\n")
  | none =>
    Outcome.andThen (solve1Arith norm (r.data.getD [])) (solve2Arith norm (r.data.getD []))

/-- The function `main` under the arithmetic given by `norm`. -/
def mainArith {σ : Type} (norm : Int → Int) (osOpen : String → Except String σ)
    (fscanf : σ → ScanResult × σ) (fuel : Nat) : Outcome :=
  match readData osOpen fscanf fuel "data1.txt" with
  | some (r, _) => mainAfterRead norm r
  | none => Outcome.outOfFuel

/-- The function `main` in exact integer arithmetic; the program on a 64-bit target is
`mainArith wrap64`. -/
def main {σ : Type} (osOpen : String → Except String σ) (fscanf : σ → ScanResult × σ)
    (fuel : Nat) : Outcome :=
  mainArith id osOpen fscanf fuel

/-! ## Specification vocabulary -/

/-- Positions `i` and `j` hold two values whose sum is 2020 under `norm`. -/
def Hit2 (norm : Int → Int) (data : List Int) (i j : Nat) : Prop :=
  ∃ a b, data[i]? = some a ∧ data[j]? = some b ∧ norm (a + b) = 2020

/-- Positions `i`, `j` and `k` hold three values whose sum is 2020 under `norm`. -/
def Hit3 (norm : Int → Int) (data : List Int) (i j k : Nat) : Prop :=
  ∃ a b c, data[i]? = some a ∧ data[j]? = some b ∧ data[k]? = some c ∧
    norm (norm (a + b) + c) = 2020

/-- The line `solve1` prints for the values `a` and `b`. -/
def answer1 (norm : Int → Int) (a b : Int) : String :=
  "Answer1: " ++ toString (norm (a * b)) ++ "\n"

/-- The line `solve2` prints for the values `a`, `b` and `c`. -/
def answer2 (norm : Int → Int) (a b c : Int) : String :=
  "Answer2: " ++ toString (norm (norm (a * b) * c)) ++ "\n"

/-- The not-found message of `solve1`, as printed by `fmt.Println`. -/
def notFound1 : String := "Could not find 2 numbers that sum up to 2020\n"

/-- The not-found message of `solve2`, as printed by `fmt.Println`. -/
def notFound2 : String := "Could not find 3 numbers that sum up to 2020\n"

/-! ## The file handle -/

/-- An `*os.File` as `readData` holds it: the name it was opened under, whether it is still
open, and the state of its content. -/
structure Handle (ρ : Type) where
  name : String
  isOpen : Bool
  content : ρ

/-- The method `f.Close()`, which releases the handle. -/
def Handle.close {ρ : Type} (f : Handle ρ) : Handle ρ := ⟨f.name, false, f.content⟩

/-- The call `os.Open(filename)` with its result as a handle: `disk` gives the content of
the file or the description of the error, and a file that opens is open. -/
def openHandle {ρ : Type} (disk : String → Except String ρ) (filename : String) :
    Except String (Handle ρ) :=
  match disk filename with
  | Except.error e => Except.error e
  | Except.ok content => Except.ok ⟨filename, true, content⟩

/-- One call `fmt.Fscanf(f, "%d", &n)` on a handle: `scan` reads the content of an open
file and leaves the file open; reading a closed file fails. -/
def fscanfHandle {ρ : Type} (scan : ρ → ScanResult × ρ) (f : Handle ρ) :
    ScanResult × Handle ρ :=
  if f.isOpen then ((scan f.content).1, ⟨f.name, f.isOpen, (scan f.content).2⟩)
  else (ScanResult.failure ("read " ++ f.name ++ ": file already closed"), f)

/-! ## 64-bit arithmetic -/

/-- The function `solve1` in Go's 64-bit arithmetic: every sum and product wraps around. -/
def solve1Int64 (data : List Int) : Outcome := solve1Arith wrap64 data

/-- The function `solve2` in Go's 64-bit arithmetic: every sum and product wraps around. -/
def solve2Int64 (data : List Int) : Outcome := solve2Arith wrap64 data

/-! ## Reporting a product -/

/-- The function `solve1` reports a product on `data`: it returns having printed a line
`Answer1: p`. -/
def ReportsProduct1 (data : List Int) : Prop :=
  ∃ p : Int, solve1 data = Outcome.returned ("Answer1: " ++ toString p ++ "\n")

/-- The function `solve2` reports a product on `data`: it returns having printed a line
`Answer2: p`. -/
def ReportsProduct2 (data : List Int) : Prop :=
  ∃ p : Int, solve2 data = Outcome.returned ("Answer2: " ++ toString p ++ "\n")

/-! ## Loop lemmas for `solve1` -/

theorem index_natCast (data : List Int) (i : Nat) : index data (i : Int) = data[i]? := by
  simp [index]

theorem getElem?_of_lt (data : List Int) {i : Nat} (h : i < data.length) :
    ∃ a, data[i]? = some a :=
  ⟨data[i], List.getElem?_eq_getElem h⟩

theorem solve1LoopJ_none (norm : Int → Int) (data : List Int) (i : Nat)
    (hi : i < data.length) :
    ∀ (fuel j : Nat), data.length - j < fuel →
      (∀ j', j ≤ j' → j' < data.length → ¬ Hit2 norm data i j') →
      solve1LoopJ norm data (i : Int) fuel (j : Int) = none := by
  intro fuel
  induction fuel with
  | zero => intro j h; omega
  | succ fuel ih =>
    intro j hf hno
    unfold solve1LoopJ
    by_cases hj : j < data.length
    · obtain ⟨a, ha⟩ := getElem?_of_lt data hi
      obtain ⟨b, hb⟩ := getElem?_of_lt data hj
      have hlt : (j : Int) < len data := by simp [len, hj]
      have hne : ¬ norm (a + b) = 2020 := fun h =>
        hno j (Nat.le_refl j) hj ⟨a, b, ha, hb, h⟩
      have hrec := ih (j + 1) (by omega)
        (fun j' h1 h2 => hno j' (by omega) h2)
      simp only [hlt, if_true, index_natCast, ha, hb, hne, if_false]
      simpa using hrec
    · have hlt : ¬ (j : Int) < len data := by simp [len]; omega
      simp [hlt]

theorem solve1LoopJ_hit (norm : Int → Int) (data : List Int) (i j0 : Nat) (a b : Int)
    (ha : data[i]? = some a) (hb : data[j0]? = some b) (hsum : norm (a + b) = 2020) :
    ∀ (fuel j : Nat), j ≤ j0 → data.length - j < fuel →
      (∀ j', j ≤ j' → j' < j0 → ¬ Hit2 norm data i j') →
      solve1LoopJ norm data (i : Int) fuel (j : Int)
        = some (Outcome.returned (answer1 norm a b)) := by
  have hj0 : j0 < data.length := by
    by_contra h
    rw [List.getElem?_eq_none (by omega)] at hb
    cases hb
  intro fuel
  induction fuel with
  | zero => intro j _ h; omega
  | succ fuel ih =>
    intro j hle hf hno
    unfold solve1LoopJ
    have hjl : j < data.length := by omega
    have hlt : (j : Int) < len data := by simp [len, hjl]
    by_cases hjj : j = j0
    · subst hjj
      simp [hlt, index_natCast, ha, hb, hsum, answer1]
    · obtain ⟨b', hb'⟩ := getElem?_of_lt data hjl
      have hne : ¬ norm (a + b') = 2020 := fun h =>
        hno j (Nat.le_refl j) (by omega) ⟨a, b', ha, hb', h⟩
      have hrec := ih (j + 1) (by omega) (by omega)
        (fun j' h1 h2 => hno j' (by omega) h2)
      simp only [hlt, if_true, index_natCast, ha, hb', hne, if_false]
      simpa using hrec

theorem solve1LoopI_none (norm : Int → Int) (data : List Int) :
    ∀ (fuel i : Nat), data.length - i < fuel →
      (∀ i' j', i ≤ i' → i' < j' → j' < data.length → ¬ Hit2 norm data i' j') →
      solve1LoopI norm data fuel (i : Int) = none := by
  intro fuel
  induction fuel with
  | zero => intro i h; omega
  | succ fuel ih =>
    intro i hf hno
    unfold solve1LoopI
    by_cases hi : i + 1 < data.length
    · have hlt : (i : Int) < len data - 1 := by simp [len]; omega
      have hin := solve1LoopJ_none norm data i (by omega) (data.length + 1) (i + 1)
        (by omega) (fun j' h1 h2 => hno i j' (Nat.le_refl i) (by omega) h2)
      have hrec := ih (i + 1) (by omega)
        (fun i' j' h1 h2 h3 => hno i' j' (by omega) h2 h3)
      push_cast at hin hrec
      simp only [hlt, if_true, hin]
      exact hrec
    · have hlt : ¬ (i : Int) < len data - 1 := by simp [len]; omega
      simp [hlt]

theorem solve1LoopI_hit (norm : Int → Int) (data : List Int) (i0 j0 : Nat) (a b : Int)
    (hij : i0 < j0)
    (ha : data[i0]? = some a) (hb : data[j0]? = some b) (hsum : norm (a + b) = 2020)
    (hrow : ∀ j', i0 < j' → j' < j0 → ¬ Hit2 norm data i0 j') :
    ∀ (fuel i : Nat), i ≤ i0 → data.length - i < fuel →
      (∀ i' j', i ≤ i' → i' < i0 → i' < j' → j' < data.length → ¬ Hit2 norm data i' j') →
      solve1LoopI norm data fuel (i : Int)
        = some (Outcome.returned (answer1 norm a b)) := by
  have hj0 : j0 < data.length := by
    by_contra h
    rw [List.getElem?_eq_none (by omega)] at hb
    cases hb
  intro fuel
  induction fuel with
  | zero => intro i _ h; omega
  | succ fuel ih =>
    intro i hle hf hno
    unfold solve1LoopI
    have hlt : (i : Int) < len data - 1 := by simp [len]; omega
    by_cases hii : i = i0
    · subst hii
      have hin := solve1LoopJ_hit norm data i j0 a b ha hb hsum (data.length + 1) (i + 1)
        (by omega) (by omega) (fun j' h1 h2 => hrow j' (by omega) h2)
      push_cast at hin
      simp only [hlt, if_true, hin]
    · have hin := solve1LoopJ_none norm data i (by omega) (data.length + 1) (i + 1)
        (by omega) (fun j' h1 h2 => hno i j' (Nat.le_refl i) (by omega) (by omega) h2)
      have hrec := ih (i + 1) (by omega) (by omega)
        (fun i' j' h1 h2 h3 h4 => hno i' j' (by omega) h2 h3 h4)
      push_cast at hin hrec
      simp only [hlt, if_true, hin]
      exact hrec

/-- When no pair of positions hits, `solve1` prints its not-found message. -/
theorem solve1Arith_notFound (norm : Int → Int) (data : List Int)
    (hno : ∀ i j, i < j → j < data.length → ¬ Hit2 norm data i j) :
    solve1Arith norm data = Outcome.returned notFound1 := by
  have h := solve1LoopI_none norm data (data.length + 1) 0 (by omega)
    (fun i' j' _ h2 h3 => hno i' j' h2 h3)
  simp only [Nat.cast_zero] at h
  simp [solve1Arith, h, notFound1]

/-- When `(i0, j0)` is the first hitting pair in the search order, `solve1` prints its
product. -/
theorem solve1Arith_found (norm : Int → Int) (data : List Int) (i0 j0 : Nat) (a b : Int)
    (hij : i0 < j0)
    (ha : data[i0]? = some a) (hb : data[j0]? = some b) (hsum : norm (a + b) = 2020)
    (hmin : ∀ i j, i < j → Hit2 norm data i j → i0 < i ∨ (i0 = i ∧ j0 ≤ j)) :
    solve1Arith norm data = Outcome.returned (answer1 norm a b) := by
  have hrow : ∀ j', i0 < j' → j' < j0 → ¬ Hit2 norm data i0 j' := by
    intro j' h1 h2 hh
    rcases hmin i0 j' h1 hh with h | ⟨_, h⟩ <;> omega
  have h := solve1LoopI_hit norm data i0 j0 a b hij ha hb hsum hrow (data.length + 1) 0
    (by omega) (by omega)
    (fun i' j' _ h2 h3 _ hh => by
      rcases hmin i' j' h3 hh with h | ⟨h, _⟩ <;> omega)
  simp only [Nat.cast_zero] at h
  simp [solve1Arith, h]

/-! ## Loop lemmas for `solve2` -/

theorem solve2LoopK_none (norm : Int → Int) (data : List Int) (i j : Nat)
    (hi : i < data.length) (hj : j < data.length) :
    ∀ (fuel k : Nat), data.length - k < fuel →
      (∀ k', k ≤ k' → k' < data.length → ¬ Hit3 norm data i j k') →
      solve2LoopK norm data (i : Int) (j : Int) fuel (k : Int) = none := by
  intro fuel
  induction fuel with
  | zero => intro k h; omega
  | succ fuel ih =>
    intro k hf hno
    unfold solve2LoopK
    by_cases hk : k < data.length
    · obtain ⟨a, ha⟩ := getElem?_of_lt data hi
      obtain ⟨b, hb⟩ := getElem?_of_lt data hj
      obtain ⟨c, hc⟩ := getElem?_of_lt data hk
      have hlt : (k : Int) < len data := by simp [len, hk]
      have hne : ¬ norm (norm (a + b) + c) = 2020 := fun h =>
        hno k (Nat.le_refl k) hk ⟨a, b, c, ha, hb, hc, h⟩
      have hrec := ih (k + 1) (by omega)
        (fun k' h1 h2 => hno k' (by omega) h2)
      simp only [hlt, if_true, index_natCast, ha, hb, hc, hne, if_false]
      simpa using hrec
    · have hlt : ¬ (k : Int) < len data := by simp [len]; omega
      simp [hlt]

theorem solve2LoopK_hit (norm : Int → Int) (data : List Int) (i j k0 : Nat) (a b c : Int)
    (ha : data[i]? = some a) (hb : data[j]? = some b) (hc : data[k0]? = some c)
    (hsum : norm (norm (a + b) + c) = 2020) :
    ∀ (fuel k : Nat), k ≤ k0 → data.length - k < fuel →
      (∀ k', k ≤ k' → k' < k0 → ¬ Hit3 norm data i j k') →
      solve2LoopK norm data (i : Int) (j : Int) fuel (k : Int)
        = some (Outcome.returned (answer2 norm a b c)) := by
  have hk0 : k0 < data.length := by
    by_contra h
    rw [List.getElem?_eq_none (by omega)] at hc
    cases hc
  intro fuel
  induction fuel with
  | zero => intro k _ h; omega
  | succ fuel ih =>
    intro k hle hf hno
    unfold solve2LoopK
    have hkl : k < data.length := by omega
    have hlt : (k : Int) < len data := by simp [len, hkl]
    by_cases hkk : k = k0
    · subst hkk
      simp [hlt, index_natCast, ha, hb, hc, hsum, answer2]
    · obtain ⟨c', hc'⟩ := getElem?_of_lt data hkl
      have hne : ¬ norm (norm (a + b) + c') = 2020 := fun h =>
        hno k (Nat.le_refl k) (by omega) ⟨a, b, c', ha, hb, hc', h⟩
      have hrec := ih (k + 1) (by omega) (by omega)
        (fun k' h1 h2 => hno k' (by omega) h2)
      simp only [hlt, if_true, index_natCast, ha, hb, hc', hne, if_false]
      simpa using hrec

theorem solve2LoopJ_none (norm : Int → Int) (data : List Int) (i : Nat)
    (hi : i < data.length) :
    ∀ (fuel j : Nat), data.length - j < fuel →
      (∀ j' k', j ≤ j' → j' < k' → k' < data.length → ¬ Hit3 norm data i j' k') →
      solve2LoopJ norm data (i : Int) fuel (j : Int) = none := by
  intro fuel
  induction fuel with
  | zero => intro j h; omega
  | succ fuel ih =>
    intro j hf hno
    unfold solve2LoopJ
    by_cases hj : j + 1 < data.length
    · have hlt : (j : Int) < len data - 1 := by simp [len]; omega
      have hin := solve2LoopK_none norm data i j hi (by omega) (data.length + 1) (j + 1)
        (by omega) (fun k' h1 h2 => hno j k' (Nat.le_refl j) (by omega) h2)
      have hrec := ih (j + 1) (by omega)
        (fun j' k' h1 h2 h3 => hno j' k' (by omega) h2 h3)
      push_cast at hin hrec
      simp only [hlt, if_true, hin]
      exact hrec
    · have hlt : ¬ (j : Int) < len data - 1 := by simp [len]; omega
      simp [hlt]

theorem solve2LoopJ_hit (norm : Int → Int) (data : List Int) (i j0 k0 : Nat) (a b c : Int)
    (hjk : j0 < k0)
    (ha : data[i]? = some a) (hb : data[j0]? = some b) (hc : data[k0]? = some c)
    (hsum : norm (norm (a + b) + c) = 2020)
    (hrow : ∀ k', j0 < k' → k' < k0 → ¬ Hit3 norm data i j0 k') :
    ∀ (fuel j : Nat), j ≤ j0 → data.length - j < fuel →
      (∀ j' k', j ≤ j' → j' < j0 → j' < k' → k' < data.length → ¬ Hit3 norm data i j' k') →
      solve2LoopJ norm data (i : Int) fuel (j : Int)
        = some (Outcome.returned (answer2 norm a b c)) := by
  have hk0 : k0 < data.length := by
    by_contra h
    rw [List.getElem?_eq_none (by omega)] at hc
    cases hc
  have hi : i < data.length := by
    by_contra h
    rw [List.getElem?_eq_none (by omega)] at ha
    cases ha
  intro fuel
  induction fuel with
  | zero => intro j _ h; omega
  | succ fuel ih =>
    intro j hle hf hno
    unfold solve2LoopJ
    have hlt : (j : Int) < len data - 1 := by simp [len]; omega
    by_cases hjj : j = j0
    · subst hjj
      have hin := solve2LoopK_hit norm data i j k0 a b c ha hb hc hsum (data.length + 1)
        (j + 1) (by omega) (by omega) (fun k' h1 h2 => hrow k' (by omega) h2)
      push_cast at hin
      simp only [hlt, if_true, hin]
    · have hin := solve2LoopK_none norm data i j hi (by omega) (data.length + 1) (j + 1)
        (by omega) (fun k' h1 h2 => hno j k' (Nat.le_refl j) (by omega) (by omega) h2)
      have hrec := ih (j + 1) (by omega) (by omega)
        (fun j' k' h1 h2 h3 h4 => hno j' k' (by omega) h2 h3 h4)
      push_cast at hin hrec
      simp only [hlt, if_true, hin]
      exact hrec

theorem solve2LoopI_none (norm : Int → Int) (data : List Int) :
    ∀ (fuel i : Nat), data.length - i < fuel →
      (∀ i' j' k', i ≤ i' → i' < j' → j' < k' → k' < data.length →
        ¬ Hit3 norm data i' j' k') →
      solve2LoopI norm data fuel (i : Int) = none := by
  intro fuel
  induction fuel with
  | zero => intro i h; omega
  | succ fuel ih =>
    intro i hf hno
    unfold solve2LoopI
    by_cases hi : i + 2 < data.length
    · have hlt : (i : Int) < len data - 2 := by simp [len]; omega
      have hin := solve2LoopJ_none norm data i (by omega) (data.length + 1) (i + 1)
        (by omega) (fun j' k' h1 h2 h3 => hno i j' k' (Nat.le_refl i) (by omega) h2 h3)
      have hrec := ih (i + 1) (by omega)
        (fun i' j' k' h1 h2 h3 h4 => hno i' j' k' (by omega) h2 h3 h4)
      push_cast at hin hrec
      simp only [hlt, if_true, hin]
      exact hrec
    · have hlt : ¬ (i : Int) < len data - 2 := by simp [len]; omega
      simp [hlt]

theorem solve2LoopI_hit (norm : Int → Int) (data : List Int) (i0 j0 k0 : Nat) (a b c : Int)
    (hij : i0 < j0) (hjk : j0 < k0)
    (ha : data[i0]? = some a) (hb : data[j0]? = some b) (hc : data[k0]? = some c)
    (hsum : norm (norm (a + b) + c) = 2020)
    (hrow : ∀ k', j0 < k' → k' < k0 → ¬ Hit3 norm data i0 j0 k')
    (hplane : ∀ j' k', i0 < j' → j' < j0 → j' < k' → k' < data.length →
      ¬ Hit3 norm data i0 j' k') :
    ∀ (fuel i : Nat), i ≤ i0 → data.length - i < fuel →
      (∀ i' j' k', i ≤ i' → i' < i0 → i' < j' → j' < k' → k' < data.length →
        ¬ Hit3 norm data i' j' k') →
      solve2LoopI norm data fuel (i : Int)
        = some (Outcome.returned (answer2 norm a b c)) := by
  have hk0 : k0 < data.length := by
    by_contra h
    rw [List.getElem?_eq_none (by omega)] at hc
    cases hc
  intro fuel
  induction fuel with
  | zero => intro i _ h; omega
  | succ fuel ih =>
    intro i hle hf hno
    unfold solve2LoopI
    have hlt : (i : Int) < len data - 2 := by simp [len]; omega
    by_cases hii : i = i0
    · subst hii
      have hin := solve2LoopJ_hit norm data i j0 k0 a b c hjk ha hb hc hsum hrow
        (data.length + 1) (i + 1) (by omega) (by omega)
        (fun j' k' h1 h2 h3 h4 => hplane j' k' (by omega) h2 h3 h4)
      push_cast at hin
      simp only [hlt, if_true, hin]
    · have hin := solve2LoopJ_none norm data i (by omega) (data.length + 1) (i + 1)
        (by omega)
        (fun j' k' h1 h2 h3 => hno i j' k' (Nat.le_refl i) (by omega) (by omega) h2 h3)
      have hrec := ih (i + 1) (by omega) (by omega)
        (fun i' j' k' h1 h2 h3 h4 h5 => hno i' j' k' (by omega) h2 h3 h4 h5)
      push_cast at hin hrec
      simp only [hlt, if_true, hin]
      exact hrec

/-- When no triple of positions hits, `solve2` prints its not-found message. -/
theorem solve2Arith_notFound (norm : Int → Int) (data : List Int)
    (hno : ∀ i j k, i < j → j < k → k < data.length → ¬ Hit3 norm data i j k) :
    solve2Arith norm data = Outcome.returned notFound2 := by
  have h := solve2LoopI_none norm data (data.length + 1) 0 (by omega)
    (fun i' j' k' _ h2 h3 h4 => hno i' j' k' h2 h3 h4)
  simp only [Nat.cast_zero] at h
  simp [solve2Arith, h, notFound2]

/-- When `(i0, j0, k0)` is the first hitting triple in the search order, `solve2` prints
its product. -/
theorem solve2Arith_found (norm : Int → Int) (data : List Int) (i0 j0 k0 : Nat)
    (a b c : Int) (hij : i0 < j0) (hjk : j0 < k0)
    (ha : data[i0]? = some a) (hb : data[j0]? = some b) (hc : data[k0]? = some c)
    (hsum : norm (norm (a + b) + c) = 2020)
    (hmin : ∀ i j k, i < j → j < k → Hit3 norm data i j k →
      i0 < i ∨ (i0 = i ∧ (j0 < j ∨ (j0 = j ∧ k0 ≤ k)))) :
    solve2Arith norm data = Outcome.returned (answer2 norm a b c) := by
  have hrow : ∀ k', j0 < k' → k' < k0 → ¬ Hit3 norm data i0 j0 k' := by
    intro k' h1 h2 hh
    rcases hmin i0 j0 k' hij h1 hh with h | ⟨_, h | ⟨_, h⟩⟩ <;> omega
  have hplane : ∀ j' k', i0 < j' → j' < j0 → j' < k' → k' < data.length →
      ¬ Hit3 norm data i0 j' k' := by
    intro j' k' h1 h2 h3 _ hh
    rcases hmin i0 j' k' h1 h3 hh with h | ⟨_, h | ⟨h, _⟩⟩ <;> omega
  have h := solve2LoopI_hit norm data i0 j0 k0 a b c hij hjk ha hb hc hsum hrow hplane
    (data.length + 1) 0 (by omega) (by omega)
    (fun i' j' k' _ h2 h3 h4 _ hh => by
      rcases hmin i' j' k' h3 h4 hh with h | ⟨h, _⟩ <;> omega)
  simp only [Nat.cast_zero] at h
  simp [solve2Arith, h]

/-! ## The first hit in the search order -/

/-- Among the hitting pairs there is a lexicographically smallest one. -/
theorem exists_first_hit2 (norm : Int → Int) (data : List Int)
    (h : ∃ i j, i < j ∧ Hit2 norm data i j) :
    ∃ i0 j0, i0 < j0 ∧ Hit2 norm data i0 j0 ∧
      ∀ i j, i < j → Hit2 norm data i j → i0 < i ∨ (i0 = i ∧ j0 ≤ j) := by
  classical
  have hP : ∃ i, ∃ j, i < j ∧ Hit2 norm data i j := h
  have hQ : ∃ j, Nat.find hP < j ∧ Hit2 norm data (Nat.find hP) j := Nat.find_spec hP
  refine ⟨Nat.find hP, Nat.find hQ, (Nat.find_spec hQ).1, (Nat.find_spec hQ).2, ?_⟩
  intro i j hij hh
  have h1 : Nat.find hP ≤ i := Nat.find_min' hP ⟨j, hij, hh⟩
  rcases Nat.lt_or_eq_of_le h1 with h2 | h2
  · exact Or.inl h2
  · refine Or.inr ⟨h2, ?_⟩
    rw [← h2] at hh
    exact Nat.find_min' hQ ⟨by omega, hh⟩

/-- Among the hitting triples there is a lexicographically smallest one. -/
theorem exists_first_hit3 (norm : Int → Int) (data : List Int)
    (h : ∃ i j k, i < j ∧ j < k ∧ Hit3 norm data i j k) :
    ∃ i0 j0 k0, i0 < j0 ∧ j0 < k0 ∧ Hit3 norm data i0 j0 k0 ∧
      ∀ i j k, i < j → j < k → Hit3 norm data i j k →
        i0 < i ∨ (i0 = i ∧ (j0 < j ∨ (j0 = j ∧ k0 ≤ k))) := by
  classical
  have hP : ∃ i, ∃ j k, i < j ∧ j < k ∧ Hit3 norm data i j k := h
  have hQ : ∃ j, ∃ k, Nat.find hP < j ∧ j < k ∧ Hit3 norm data (Nat.find hP) j k :=
    Nat.find_spec hP
  have hR : ∃ k, Nat.find hP < Nat.find hQ ∧ Nat.find hQ < k ∧
      Hit3 norm data (Nat.find hP) (Nat.find hQ) k := Nat.find_spec hQ
  refine ⟨Nat.find hP, Nat.find hQ, Nat.find hR, (Nat.find_spec hR).1,
    (Nat.find_spec hR).2.1, (Nat.find_spec hR).2.2, ?_⟩
  intro i j k hij hjk hh
  have h1 : Nat.find hP ≤ i := Nat.find_min' hP ⟨j, k, hij, hjk, hh⟩
  rcases Nat.lt_or_eq_of_le h1 with h2 | h2
  · exact Or.inl h2
  · refine Or.inr ⟨h2, ?_⟩
    rw [← h2] at hh
    have h3 : Nat.find hQ ≤ j := Nat.find_min' hQ ⟨k, by omega, hjk, hh⟩
    rcases Nat.lt_or_eq_of_le h3 with h4 | h4
    · exact Or.inl h4
    · refine Or.inr ⟨h4, ?_⟩
      rw [← h4] at hh
      exact Nat.find_min' hR ⟨by omega, by omega, hh⟩

/-! ## Claims about `solve1` and `solve2` -/

/-- C1: whenever some positions `i < j` hold values with `data[i] + data[j] = 2020`
(exact integer arithmetic), `solve1` returns having printed exactly the one line
`Answer1: p`, where `p` is the product of the values at the lexicographically smallest
such pair of positions `(i0, j0)` (lowest `i`, then lowest `j`). -/
theorem solve1_prints_first_pair (data : List Int)
    (h : ∃ (i j : Nat) (a b : Int), i < j ∧ data[i]? = some a ∧ data[j]? = some b ∧ a + b = 2020) :
    ∃ (i0 j0 : Nat) (a0 b0 : Int), i0 < j0 ∧ data[i0]? = some a0 ∧ data[j0]? = some b0 ∧ a0 + b0 = 2020 ∧
      (∀ (i j : Nat) (a b : Int), i < j → data[i]? = some a → data[j]? = some b → a + b = 2020 →
        i0 < i ∨ (i0 = i ∧ j0 ≤ j)) ∧
      solve1 data = Outcome.returned ("Answer1: " ++ toString (a0 * b0) ++ "\n") := by
  obtain ⟨i, j, a, b, hij, ha, hb, hs⟩ := h
  obtain ⟨i0, j0, hij0, ⟨a0, b0, ha0, hb0, hs0⟩, hmin⟩ :=
    exists_first_hit2 id data ⟨i, j, hij, a, b, ha, hb, hs⟩
  refine ⟨i0, j0, a0, b0, hij0, ha0, hb0, hs0, ?_, ?_⟩
  · intro i j a b hij ha hb hs
    exact hmin i j hij ⟨a, b, ha, hb, hs⟩
  · exact solve1Arith_found id data i0 j0 a0 b0 hij0 ha0 hb0 hs0 hmin

/-- Witness for C1 on the dataset `[1721, 979, 366, 299, 675, 1456]`. -/
theorem solve1_prints_first_pair_witness :
    (∃ (i j : Nat) (a b : Int), i < j ∧ ([1721, 979, 366, 299, 675, 1456] : List Int)[i]? = some a ∧
        ([1721, 979, 366, 299, 675, 1456] : List Int)[j]? = some b ∧ a + b = 2020) ∧
    ∃ (i0 j0 : Nat) (a0 b0 : Int), i0 < j0 ∧ ([1721, 979, 366, 299, 675, 1456] : List Int)[i0]? = some a0 ∧
      ([1721, 979, 366, 299, 675, 1456] : List Int)[j0]? = some b0 ∧ a0 + b0 = 2020 ∧
      (∀ (i j : Nat) (a b : Int), i < j → ([1721, 979, 366, 299, 675, 1456] : List Int)[i]? = some a →
        ([1721, 979, 366, 299, 675, 1456] : List Int)[j]? = some b → a + b = 2020 →
        i0 < i ∨ (i0 = i ∧ j0 ≤ j)) ∧
      solve1 [1721, 979, 366, 299, 675, 1456]
        = Outcome.returned ("Answer1: " ++ toString (a0 * b0) ++ "\n") :=
  ⟨⟨0, 3, 1721, 299, by decide, rfl, rfl, by decide⟩,
    solve1_prints_first_pair [1721, 979, 366, 299, 675, 1456]
      ⟨0, 3, 1721, 299, by decide, rfl, rfl, by decide⟩⟩

/-- C2: whenever some positions `i < j < k` hold values with
`data[i] + data[j] + data[k] = 2020` (exact integer arithmetic), `solve2` returns having
printed exactly the one line `Answer2: p`, where `p` is the product of the values at the
lexicographically smallest such triple of positions `(i0, j0, k0)`. -/
theorem solve2_prints_first_triple (data : List Int)
    (h : ∃ (i j k : Nat) (a b c : Int), i < j ∧ j < k ∧ data[i]? = some a ∧ data[j]? = some b ∧
      data[k]? = some c ∧ a + b + c = 2020) :
    ∃ (i0 j0 k0 : Nat) (a0 b0 c0 : Int), i0 < j0 ∧ j0 < k0 ∧ data[i0]? = some a0 ∧ data[j0]? = some b0 ∧
      data[k0]? = some c0 ∧ a0 + b0 + c0 = 2020 ∧
      (∀ (i j k : Nat) (a b c : Int), i < j → j < k → data[i]? = some a → data[j]? = some b →
        data[k]? = some c → a + b + c = 2020 →
        i0 < i ∨ (i0 = i ∧ (j0 < j ∨ (j0 = j ∧ k0 ≤ k)))) ∧
      solve2 data = Outcome.returned ("Answer2: " ++ toString (a0 * b0 * c0) ++ "\n") := by
  obtain ⟨i, j, k, a, b, c, hij, hjk, ha, hb, hc, hs⟩ := h
  obtain ⟨i0, j0, k0, hij0, hjk0, ⟨a0, b0, c0, ha0, hb0, hc0, hs0⟩, hmin⟩ :=
    exists_first_hit3 id data ⟨i, j, k, hij, hjk, a, b, c, ha, hb, hc, hs⟩
  refine ⟨i0, j0, k0, a0, b0, c0, hij0, hjk0, ha0, hb0, hc0, hs0, ?_, ?_⟩
  · intro i j k a b c hij hjk ha hb hc hs
    exact hmin i j k hij hjk ⟨a, b, c, ha, hb, hc, hs⟩
  · exact solve2Arith_found id data i0 j0 k0 a0 b0 c0 hij0 hjk0 ha0 hb0 hc0 hs0 hmin

/-- Witness for C2 on the dataset `[1721, 979, 366, 299, 675, 1456]`. -/
theorem solve2_prints_first_triple_witness :
    (∃ (i j k : Nat) (a b c : Int), i < j ∧ j < k ∧
        ([1721, 979, 366, 299, 675, 1456] : List Int)[i]? = some a ∧
        ([1721, 979, 366, 299, 675, 1456] : List Int)[j]? = some b ∧
        ([1721, 979, 366, 299, 675, 1456] : List Int)[k]? = some c ∧ a + b + c = 2020) ∧
    ∃ (i0 j0 k0 : Nat) (a0 b0 c0 : Int), i0 < j0 ∧ j0 < k0 ∧
      ([1721, 979, 366, 299, 675, 1456] : List Int)[i0]? = some a0 ∧
      ([1721, 979, 366, 299, 675, 1456] : List Int)[j0]? = some b0 ∧
      ([1721, 979, 366, 299, 675, 1456] : List Int)[k0]? = some c0 ∧ a0 + b0 + c0 = 2020 ∧
      (∀ (i j k : Nat) (a b c : Int), i < j → j < k →
        ([1721, 979, 366, 299, 675, 1456] : List Int)[i]? = some a →
        ([1721, 979, 366, 299, 675, 1456] : List Int)[j]? = some b →
        ([1721, 979, 366, 299, 675, 1456] : List Int)[k]? = some c → a + b + c = 2020 →
        i0 < i ∨ (i0 = i ∧ (j0 < j ∨ (j0 = j ∧ k0 ≤ k)))) ∧
      solve2 [1721, 979, 366, 299, 675, 1456]
        = Outcome.returned ("Answer2: " ++ toString (a0 * b0 * c0) ++ "\n") :=
  ⟨⟨1, 2, 4, 979, 366, 675, by decide, by decide, rfl, rfl, rfl, by decide⟩,
    solve2_prints_first_triple [1721, 979, 366, 299, 675, 1456]
      ⟨1, 2, 4, 979, 366, 675, by decide, by decide, rfl, rfl, rfl, by decide⟩⟩

/-- C3: when no two positions `i < j` hold values with `data[i] + data[j] = 2020` (exact
integer arithmetic), `solve1` returns having printed only its not-found message, so no
`Answer1:` line; the witness is the dataset `[1010]`, whose single element is not paired
with itself. -/
theorem solve1_not_found (data : List Int)
    (h : ¬ ∃ (i j : Nat) (a b : Int), i < j ∧ data[i]? = some a ∧ data[j]? = some b ∧ a + b = 2020) :
    solve1 data = Outcome.returned "Could not find 2 numbers that sum up to 2020\n" := by
  apply solve1Arith_notFound id data
  rintro i j hij _ ⟨a, b, ha, hb, hs⟩
  exact h ⟨i, j, a, b, hij, ha, hb, hs⟩

/-- Witness for C3: a single `1010` is never paired with itself. -/
theorem solve1_not_found_witness :
    (¬ ∃ (i j : Nat) (a b : Int), i < j ∧ ([1010] : List Int)[i]? = some a ∧
        ([1010] : List Int)[j]? = some b ∧ a + b = 2020) ∧
    solve1 [1010] = Outcome.returned "Could not find 2 numbers that sum up to 2020\n" :=
  have hno : ¬ ∃ (i j : Nat) (a b : Int), i < j ∧ ([1010] : List Int)[i]? = some a ∧
      ([1010] : List Int)[j]? = some b ∧ a + b = 2020 := by
    rintro ⟨i, j, a, b, hij, _, hb, _⟩
    rw [List.getElem?_eq_none (by simp; omega)] at hb
    cases hb
  ⟨hno, solve1_not_found [1010] hno⟩

/-- Every triple of values taken from `[1000, 1000, 1000]` sums to 3000. -/
theorem thousands_getElem? {i : Nat} {a : Int}
    (h : ([1000, 1000, 1000] : List Int)[i]? = some a) : a = 1000 := by
  match i, h with
  | 0, h => simpa using h.symm
  | 1, h => simpa using h.symm
  | 2, h => simpa using h.symm
  | n + 3, h => simp at h

/-- C4: when no three positions `i < j < k` hold values with
`data[i] + data[j] + data[k] = 2020` (exact integer arithmetic), `solve2` returns having
printed only its not-found message, so no `Answer2:` line; the witness is the dataset
`[1000, 1000, 1000]`. -/
theorem solve2_not_found (data : List Int)
    (h : ¬ ∃ (i j k : Nat) (a b c : Int), i < j ∧ j < k ∧ data[i]? = some a ∧ data[j]? = some b ∧
      data[k]? = some c ∧ a + b + c = 2020) :
    solve2 data = Outcome.returned "Could not find 3 numbers that sum up to 2020\n" := by
  apply solve2Arith_notFound id data
  rintro i j k hij hjk _ ⟨a, b, c, ha, hb, hc, hs⟩
  exact h ⟨i, j, k, a, b, c, hij, hjk, ha, hb, hc, hs⟩

/-- Witness for C4: on `[1000, 1000, 1000]` (sum 3000) `solve2` reports not-found. -/
theorem solve2_not_found_witness :
    (¬ ∃ (i j k : Nat) (a b c : Int), i < j ∧ j < k ∧ ([1000, 1000, 1000] : List Int)[i]? = some a ∧
        ([1000, 1000, 1000] : List Int)[j]? = some b ∧
        ([1000, 1000, 1000] : List Int)[k]? = some c ∧ a + b + c = 2020) ∧
    solve2 [1000, 1000, 1000]
      = Outcome.returned "Could not find 3 numbers that sum up to 2020\n" :=
  have hno : ¬ ∃ (i j k : Nat) (a b c : Int), i < j ∧ j < k ∧ ([1000, 1000, 1000] : List Int)[i]? = some a ∧
      ([1000, 1000, 1000] : List Int)[j]? = some b ∧
      ([1000, 1000, 1000] : List Int)[k]? = some c ∧ a + b + c = 2020 := by
    rintro ⟨i, j, k, a, b, c, _, _, ha, hb, hc, hs⟩
    rw [thousands_getElem? ha, thousands_getElem? hb, thousands_getElem? hc] at hs
    exact absurd hs (by decide)
  ⟨hno, solve2_not_found [1000, 1000, 1000] hno⟩

/-- C5: on `[1721, 979, 366, 299, 675, 1456]`, `solve1` finds the pair `(1721, 299)` at
positions 0 and 3 and prints `Answer1: 514579`, and `solve2` finds the triple
`(979, 366, 675)` at positions 1, 2 and 4 and prints `Answer2: 241861950`. -/
theorem example_dataset_answers :
    solve1 [1721, 979, 366, 299, 675, 1456] = Outcome.returned "Answer1: 514579\n" ∧
    solve1 [1721, 979, 366, 299, 675, 1456] = Outcome.returned (answer1 id 1721 299) ∧
    solve2 [1721, 979, 366, 299, 675, 1456] = Outcome.returned "Answer2: 241861950\n" ∧
    solve2 [1721, 979, 366, 299, 675, 1456]
      = Outcome.returned (answer2 id 979 366 675) := by
  refine ⟨?_, ?_, ?_, ?_⟩ <;> rfl

/-- C6 as stated fails: positions 0 and 1 of `[1000, 1000, 1000]` sum to 2000, not 2020,
and `solve1` does not print `Answer1: 1000000`. -/
theorem thousands_pair_counterexample :
    ¬ (([1000, 1000, 1000] : List Int)[0]?.getD 0 + ([1000, 1000, 1000] : List Int)[1]?.getD 0
        = 2020 ∧
      solve1 [1000, 1000, 1000] = Outcome.returned "Answer1: 1000000\n") := by
  decide

/-- C6, amended: on `[1000, 1000, 1000]` no two positions sum to 2020 (every pair sums to
2000), so `solve1` prints its not-found message; three equal values at distinct positions
do pair up when they are 1010: on `[1010, 1010, 1010]` `solve1` takes positions 0 and 1 and
prints `Answer1: 1020100`. -/
theorem thousands_pair_not_found :
    solve1 [1000, 1000, 1000]
      = Outcome.returned "Could not find 2 numbers that sum up to 2020\n" ∧
    solve1 [1010, 1010, 1010] = Outcome.returned "Answer1: 1020100\n" := by
  constructor <;> rfl

/-- C7: on the empty dataset `solve1` and `solve2` each return having printed their
not-found message, so neither panics; the loop bounds `len(data) - 1` and `len(data) - 2`
are negative, and the outer loops end at their first test, before any index is read. -/
theorem empty_dataset_not_found :
    solve1 [] = Outcome.returned "Could not find 2 numbers that sum up to 2020\n" ∧
    solve2 [] = Outcome.returned "Could not find 3 numbers that sum up to 2020\n" ∧
    len [] - 1 < 0 ∧ len [] - 2 < 0 ∧
    (∀ (norm : Int → Int) (fuel : Nat), solve1LoopI norm [] (fuel + 1) 0 = none) ∧
    (∀ (norm : Int → Int) (fuel : Nat), solve2LoopI norm [] (fuel + 1) 0 = none) := by
  refine ⟨rfl, rfl, by decide, by decide, ?_, ?_⟩
  · intro norm fuel
    simp [solve1LoopI, len]
  · intro norm fuel
    simp [solve2LoopI, len]

/-! ## Claims about `readData` and `main` -/

theorem fileBefore_succ_left {σ : Type} (fscanf : σ → ScanResult × σ) (f : σ) (k : Nat) :
    fileBefore fscanf f (k + 1) = fileBefore fscanf (fscanf f).2 k := by
  induction k with
  | zero => rfl
  | succ k ih =>
    calc fileBefore fscanf f (k + 1 + 1)
        = (fscanf (fileBefore fscanf f (k + 1))).2 := rfl
      _ = (fscanf (fileBefore fscanf (fscanf f).2 k)).2 := by rw [ih]
      _ = fileBefore fscanf (fscanf f).2 (k + 1) := rfl

theorem scanAt_succ_left {σ : Type} (fscanf : σ → ScanResult × σ) (f : σ) (k : Nat) :
    scanAt fscanf f (k + 1) = scanAt fscanf (fscanf f).2 k := by
  unfold scanAt
  rw [fileBefore_succ_left]

/-- While the calls of `fscanf` yield the integers `vs`, the loop appends them to the
slice and goes on. -/
theorem readLoop_values {σ : Type} (fscanf : σ → ScanResult × σ) (vs : List Int) :
    ∀ (f : σ) (acc : List Int) (fuel : Nat),
      (∀ (k : Nat) (hk : k < vs.length), scanAt fscanf f k = ScanResult.value vs[k]) →
      readLoop fscanf (vs.length + fuel) f acc
        = readLoop fscanf fuel (fileBefore fscanf f vs.length) (acc ++ vs) := by
  induction vs with
  | nil => intro f acc fuel _; simp [fileBefore]
  | cons v vs ih =>
    intro f acc fuel hvals
    have h0 : (fscanf f).1 = ScanResult.value v := hvals 0 (by simp)
    have hrest : ∀ (k : Nat) (hk : k < vs.length),
        scanAt fscanf (fscanf f).2 k = ScanResult.value vs[k] := by
      intro k hk
      rw [← scanAt_succ_left]
      exact hvals (k + 1) (by simp; omega)
    have hstep : readLoop fscanf ((v :: vs).length + fuel) f acc
        = readLoop fscanf (vs.length + fuel) (fscanf f).2 (acc ++ [v]) := by
      have hlen : (v :: vs).length + fuel = (vs.length + fuel) + 1 := by
        simp only [List.length_cons]; omega
      rw [hlen]
      rcases hfs : fscanf f with ⟨r, f'⟩
      simp only [hfs] at h0
      subst h0
      simp [readLoop, hfs]
    rw [hstep, ih (fscanf f).2 (acc ++ [v]) fuel hrest]
    simp [fileBefore_succ_left]

/-- The run of `readData` on an opened file whose scans yield `vs` and then end of file. -/
theorem readData_eof {σ : Type} (osOpen : String → Except String σ)
    (fscanf : σ → ScanResult × σ) (filename : String) (f : σ) (vs : List Int)
    (hopen : osOpen filename = Except.ok f)
    (hvals : ∀ (k : Nat) (hk : k < vs.length), scanAt fscanf f k = ScanResult.value vs[k])
    (hend : scanAt fscanf f vs.length = ScanResult.eof) (fuel : Nat) (hfuel : vs.length < fuel) :
    readData osOpen fscanf fuel filename
      = some (⟨some vs, none⟩, some (fileBefore fscanf f (vs.length + 1))) := by
  obtain ⟨extra, rfl⟩ : ∃ extra, fuel = vs.length + (extra + 1) := ⟨fuel - vs.length - 1, by omega⟩
  have hloop := readLoop_values fscanf vs f [] (extra + 1) hvals
  unfold scanAt at hend
  rcases hfs : fscanf (fileBefore fscanf f vs.length) with ⟨r, f'⟩
  simp only [hfs] at hend
  subst hend
  unfold readData
  rw [hopen]
  simp only []
  rw [hloop]
  simp [readLoop, hfs, fileBefore]

/-- The run of `readData` on an opened file whose scans yield `vs` and then fail. -/
theorem readData_failure {σ : Type} (osOpen : String → Except String σ)
    (fscanf : σ → ScanResult × σ) (filename : String) (f : σ) (vs : List Int) (msg : String)
    (hopen : osOpen filename = Except.ok f)
    (hvals : ∀ (k : Nat) (hk : k < vs.length), scanAt fscanf f k = ScanResult.value vs[k])
    (hend : scanAt fscanf f vs.length = ScanResult.failure msg)
    (fuel : Nat) (hfuel : vs.length < fuel) :
    readData osOpen fscanf fuel filename
      = some (⟨none, some msg⟩, some (fileBefore fscanf f (vs.length + 1))) := by
  obtain ⟨extra, rfl⟩ : ∃ extra, fuel = vs.length + (extra + 1) := ⟨fuel - vs.length - 1, by omega⟩
  have hloop := readLoop_values fscanf vs f [] (extra + 1) hvals
  unfold scanAt at hend
  rcases hfs : fscanf (fileBefore fscanf f vs.length) with ⟨r, f'⟩
  simp only [hfs] at hend
  subst hend
  unfold readData
  rw [hopen]
  simp only []
  rw [hloop]
  simp [readLoop, hfs, fileBefore]

/-- C8: let the successive calls of `fmt.Fscanf` on the opened file yield the results
`seq 0, seq 1, ...`, of which the first `vs.length` are the integers `vs`.  If the next
result is a non-EOF error, `readData` returns `(nil, that error)` and none of `vs`; if it
is EOF, `readData` returns exactly `vs`, in order, with a nil error.  Both hold for every
fuel above `vs.length`, and the file is left after `vs.length + 1` scans. -/
theorem readData_all_or_nothing (seq : Nat → ScanResult) (filename : String) (vs : List Int)
    (hvals : ∀ (k : Nat) (hk : k < vs.length), seq k = ScanResult.value vs[k]) :
    (∀ msg : String, seq vs.length = ScanResult.failure msg →
      ∀ fuel : Nat, vs.length < fuel →
        readData (fun _ => Except.ok 0) (fun k => (seq k, k + 1)) fuel filename
          = some (⟨none, some msg⟩, some (vs.length + 1))) ∧
    (seq vs.length = ScanResult.eof →
      ∀ fuel : Nat, vs.length < fuel →
        readData (fun _ => Except.ok 0) (fun k => (seq k, k + 1)) fuel filename
          = some (⟨some vs, none⟩, some (vs.length + 1))) := by
  have hpos : ∀ k : Nat, fileBefore (fun k => (seq k, k + 1)) 0 k = k := by
    intro k
    induction k with
    | zero => rfl
    | succ k ih => simp [fileBefore, ih]
  have hat : ∀ k : Nat, scanAt (fun k => (seq k, k + 1)) 0 k = seq k := by
    intro k
    simp [scanAt, hpos]
  constructor
  · intro msg hend fuel hfuel
    have h := readData_failure (fun _ => Except.ok 0) (fun k => (seq k, k + 1)) filename 0 vs
      msg rfl (fun k hk => by rw [hat]; exact hvals k hk) (by rw [hat]; exact hend) fuel hfuel
    rw [h, hpos]
  · intro hend fuel hfuel
    have h := readData_eof (fun _ => Except.ok 0) (fun k => (seq k, k + 1)) filename 0 vs
      rfl (fun k hk => by rw [hat]; exact hvals k hk) (by rw [hat]; exact hend) fuel hfuel
    rw [h, hpos]

/-- Witness for C8: two integers are read before a parse error, and none is returned. -/
theorem readData_all_or_nothing_witness :
    (∀ (k : Nat) (hk : k < ([5, 7] : List Int).length),
      sampleScans k = ScanResult.value ([5, 7] : List Int)[k]) ∧
    readData (fun _ => Except.ok 0) (fun k => (sampleScans k, k + 1)) 3 "data1.txt"
      = some (⟨none, some "expected integer"⟩, some 3) :=
  have hvals : ∀ (k : Nat) (hk : k < ([5, 7] : List Int).length),
      sampleScans k = ScanResult.value ([5, 7] : List Int)[k] := by
    intro k hk
    match k, hk with
    | 0, _ => rfl
    | 1, _ => rfl
    | n + 2, hk => simp at hk
  ⟨hvals, (readData_all_or_nothing sampleScans "data1.txt" [5, 7] hvals).1
    "expected integer" rfl 3 (by decide)⟩

/-- C9: whenever `readData` returns an error (the file cannot be opened, or a scan
fails), `main` returns having printed only the description of that error and a newline:
neither `solve1` nor `solve2` runs, so no `Answer1:`/`Answer2:` line and no not-found
message is printed. -/
theorem main_prints_only_read_error {σ : Type} (osOpen : String → Except String σ)
    (fscanf : σ → ScanResult × σ) (fuel : Nat) (r : ReadResult) (file : Option σ) (e : String)
    (hread : readData osOpen fscanf fuel "data1.txt" = some (r, file))
    (herr : r.err = some e) :
    main osOpen fscanf fuel = Outcome.returned (e ++ "\n") := by
  simp [main, mainArith, hread, mainAfterRead, herr]

/-- Witness for C9: the file `data1.txt` does not exist. -/
theorem main_prints_only_read_error_witness :
    readData (fun _ => (Except.error "open data1.txt: no such file or directory" :
        Except String Nat)) (fun k => (ScanResult.eof, k)) 1 "data1.txt"
      = some (⟨none, some "open data1.txt: no such file or directory"⟩, none) ∧
    (⟨none, some "open data1.txt: no such file or directory"⟩ : ReadResult).err
      = some "open data1.txt: no such file or directory" ∧
    main (fun _ => (Except.error "open data1.txt: no such file or directory" :
        Except String Nat)) (fun k => (ScanResult.eof, k)) 1
      = Outcome.returned ("open data1.txt: no such file or directory" ++ "\n") :=
  ⟨rfl, rfl, main_prints_only_read_error _ _ 1 _ none _ rfl rfl⟩


/-! ## Decimal digits -/

theorem digitChar_isDigit (k : Nat) (hk : k < 10) :
    (Nat.digitChar k).isDigit = true ∧ (Nat.digitChar k).toNat - 48 = k := by
  interval_cases k <;> decide

theorem digitsValue_append_singleton (ds : List Char) (d : Char) :
    digitsValue (ds ++ [d]) = 10 * digitsValue ds + (d.toNat - 48) := by
  simp [digitsValue, List.foldl_append]

/-- The digits `Nat.toDigitsCore` puts in front of `ds` are decimal digits that write `n`. -/
theorem toDigitsCore_spec :
    ∀ (fuel n : Nat) (ds : List Char), n < fuel →
      ∃ pre : List Char, Nat.toDigitsCore 10 fuel n ds = pre ++ ds ∧ pre ≠ [] ∧
        (∀ c ∈ pre, c.isDigit = true) ∧ digitsValue pre = n := by
  intro fuel
  induction fuel with
  | zero => intro n ds h; omega
  | succ fuel ih =>
    intro n ds hn
    have hd := digitChar_isDigit (n % 10) (Nat.mod_lt n (by decide))
    by_cases h0 : n / 10 = 0
    · refine ⟨[Nat.digitChar (n % 10)], ?_, by simp, ?_, ?_⟩
      · simp [Nat.toDigitsCore, h0]
      · intro c hc
        simp only [List.mem_singleton] at hc
        rw [hc]; exact hd.1
      · have : digitsValue [Nat.digitChar (n % 10)] = (Nat.digitChar (n % 10)).toNat - 48 := by
          simp [digitsValue]
        rw [this, hd.2]
        omega
    · obtain ⟨pre, hpre, hne, hdig, hval⟩ :=
        ih (n / 10) (Nat.digitChar (n % 10) :: ds) (by omega)
      refine ⟨pre ++ [Nat.digitChar (n % 10)], ?_, by simp, ?_, ?_⟩
      · simp [Nat.toDigitsCore, h0, hpre]
      · intro c hc
        rcases List.mem_append.mp hc with hc | hc
        · exact hdig c hc
        · simp only [List.mem_singleton] at hc
          rw [hc]; exact hd.1
      · rw [digitsValue_append_singleton, hval, hd.2]
        omega

/-- The decimal digits of a natural number, as `%d` prints them. -/
theorem toDigits_spec (n : Nat) :
    Nat.toDigits 10 n ≠ [] ∧ (∀ c ∈ Nat.toDigits 10 n, c.isDigit = true) ∧
      digitsValue (Nat.toDigits 10 n) = n := by
  obtain ⟨pre, hpre, hne, hdig, hval⟩ := toDigitsCore_spec (n + 1) n [] (by omega)
  have : Nat.toDigits 10 n = pre := by simpa [Nat.toDigits] using hpre
  rw [this]
  exact ⟨hne, hdig, hval⟩

/-- The text of an integer in decimal, as `%d` prints it: a minus sign for a negative
number, then the digits of its absolute value. -/
theorem toString_int_toList (v : Int) :
    (toString v).toList
      = if v < 0 then '-' :: Nat.toDigits 10 v.natAbs else Nat.toDigits 10 v.natAbs := by
  cases v with
  | ofNat n =>
    have h : ¬ (Int.ofNat n < 0) := by simp
    rw [if_neg h]
    show (Nat.repr n).toList = _
    simp [Nat.repr, List.asString]
  | negSucc n =>
    have h : Int.negSucc n < 0 := Int.negSucc_lt_zero n
    rw [if_pos h]
    show ("-" ++ Nat.repr (n + 1)).toList = _
    simp [Nat.repr, Int.natAbs, List.asString]

/-! ## One scan of a number -/

theorem isDigit_facts (d : Char) (h : d.isDigit = true) :
    d ≠ '\n' ∧ d ≠ '+' ∧ d ≠ '-' ∧ isSpace d = false := by
  have hb : 48 ≤ d.toNat ∧ d.toNat ≤ 57 := by
    simp only [Char.isDigit, Bool.and_eq_true, decide_eq_true_eq] at h
    exact ⟨h.1, h.2⟩
  refine ⟨?_, ?_, ?_, ?_⟩
  · rintro rfl; revert h; decide
  · rintro rfl; revert h; decide
  · rintro rfl; revert h; decide
  · simp only [isSpace, Bool.or_eq_false_iff, Bool.and_eq_false_iff, decide_eq_false_iff_not,
      beq_eq_false_iff_ne, ne_eq]
    omega

theorem skipSpace_pad (pad : List Char) (hpad : IsPad pad) (rest : List Char) :
    skipSpace (pad ++ rest) = skipSpace rest := by
  induction pad with
  | nil => rfl
  | cons c pad ih =>
    have hc := hpad c (List.mem_cons_self c pad)
    have ih' := ih (fun x hx => hpad x (List.mem_cons_of_mem c hx))
    simp [skipSpace, hc.1, hc.2, ih']

theorem takeWhile_digits (ds tail : List Char) (hds : ∀ c ∈ ds, c.isDigit = true)
    (htail : ∀ c ∈ tail.head?, c.isDigit = false) :
    (ds ++ tail).takeWhile Char.isDigit = ds ∧ (ds ++ tail).dropWhile Char.isDigit = tail := by
  induction ds with
  | nil =>
    cases tail with
    | nil => simp
    | cons c t =>
      have hc : c.isDigit = false := htail c (by simp)
      simp [List.takeWhile, List.dropWhile, hc]
  | cons d ds ih =>
    have hd : d.isDigit = true := hds d (List.mem_cons_self d ds)
    have ih' := ih (fun x hx => hds x (List.mem_cons_of_mem d hx))
    simp [List.takeWhile, List.dropWhile, hd, ih'.1, ih'.2]

/-- The text of an integer as `%d` prints it is a numeral that writes that integer. -/
theorem numeral_toString (v : Int) :
    IsNumeral (toString v).toList ∧ numeralValue (toString v).toList = v := by
  obtain ⟨hne, hdig, hval⟩ := toDigits_spec v.natAbs
  obtain ⟨d, ds, hds⟩ : ∃ d ds, Nat.toDigits 10 v.natAbs = d :: ds := by
    cases hcs : Nat.toDigits 10 v.natAbs with
    | nil => exact absurd hcs hne
    | cons d ds => exact ⟨d, ds, rfl⟩
  rw [hds] at hdig hval
  have hd : d.isDigit = true := hdig d (List.mem_cons_self d ds)
  obtain ⟨_, hd2, hd3, _⟩ := isDigit_facts d hd
  rw [toString_int_toList, hds]
  by_cases hneg : v < 0
  · rw [if_pos hneg]
    refine ⟨⟨['-'], d :: ds, rfl, Or.inr (Or.inr rfl), by simp, hdig⟩, ?_⟩
    simp only [numeralValue, if_true, hval]
    omega
  · rw [if_neg hneg]
    refine ⟨⟨[], d :: ds, rfl, Or.inl rfl, by simp, hdig⟩, ?_⟩
    simp only [numeralValue, hd2, hd3, if_false, hval]
    omega

/-- The parse of a numeral of a 64-bit integer is the integer it writes. -/
theorem parseInt_numeral (tok : List Char) (hv : inInt64 (numeralValue tok)) :
    parseInt tok = Except.ok (numeralValue tok) := by
  show (if inInt64 (numeralValue tok) then Except.ok (numeralValue tok) else _) = _
  rw [if_pos hv]

/-- One call of `Fscanf` on padding, a sign and digits. -/
theorem fscanfInt_signed (c d : Char) (ds pad tail : List Char) (hpad : IsPad pad)
    (hc : c = '+' ∨ c = '-') (hcs : isSpace c = false) (hcn : c ≠ '\n')
    (hv : inInt64 (numeralValue (c :: d :: ds)))
    (hdig : ∀ x ∈ d :: ds, x.isDigit = true)
    (htail : ∀ x ∈ tail.head?, x.isDigit = false) :
    fscanfInt (pad ++ (c :: d :: ds ++ tail))
      = (ScanResult.value (numeralValue (c :: d :: ds)), tail.drop 1) := by
  have hd : d.isDigit = true := hdig d (List.mem_cons_self d ds)
  have htw := takeWhile_digits (d :: ds) tail hdig htail
  simp only [List.cons_append] at htw
  have hskip : skipSpace (c :: d :: (ds ++ tail)) = (none, c :: d :: (ds ++ tail)) := by
    simp [skipSpace, hcn, hcs]
  unfold fscanfInt
  rw [skipSpace_pad pad hpad]
  simp only [List.cons_append, hskip, hc, if_true, hd, htw.1, htw.2, List.singleton_append,
    List.nil_append, parseInt_numeral _ hv]

/-- One call of `Fscanf` on padding and digits. -/
theorem fscanfInt_unsigned (d : Char) (ds pad tail : List Char) (hpad : IsPad pad)
    (hv : inInt64 (numeralValue (d :: ds)))
    (hdig : ∀ x ∈ d :: ds, x.isDigit = true)
    (htail : ∀ x ∈ tail.head?, x.isDigit = false) :
    fscanfInt (pad ++ (d :: ds ++ tail))
      = (ScanResult.value (numeralValue (d :: ds)), tail.drop 1) := by
  have hd : d.isDigit = true := hdig d (List.mem_cons_self d ds)
  obtain ⟨hd1, hd2, hd3, hd4⟩ := isDigit_facts d hd
  have hc : ¬ (d = '+' ∨ d = '-') := by
    rintro (h | h)
    · exact hd2 h
    · exact hd3 h
  have htw := takeWhile_digits (d :: ds) tail hdig htail
  simp only [List.cons_append] at htw
  have hskip : skipSpace (d :: (ds ++ tail)) = (none, d :: (ds ++ tail)) := by
    simp [skipSpace, hd1, hd4]
  unfold fscanfInt
  rw [skipSpace_pad pad hpad]
  simp only [List.cons_append, hskip, hc, if_false, hd, if_true, htw.1, htw.2, List.nil_append,
    parseInt_numeral _ hv]

/-- One call of `Fscanf` on padding, a signed decimal numeral of a 64-bit integer, and
text that does not go on with a digit: the integer is read, and the rune after the
numeral is lost. -/
theorem fscanfInt_numeral (tok : List Char) (hnum : IsNumeral tok)
    (hv : inInt64 (numeralValue tok)) (pad tail : List Char) (hpad : IsPad pad)
    (htail : ∀ c ∈ tail.head?, c.isDigit = false) :
    fscanfInt (pad ++ (tok ++ tail)) = (ScanResult.value (numeralValue tok), tail.drop 1) := by
  obtain ⟨sign, digits, rfl, hsign, hne, hdig⟩ := hnum
  obtain ⟨d, ds, rfl⟩ : ∃ d ds, digits = d :: ds := by
    cases digits with
    | nil => exact absurd rfl hne
    | cons d ds => exact ⟨d, ds, rfl⟩
  rcases hsign with rfl | rfl | rfl
  · exact fscanfInt_unsigned d ds pad tail hpad hv hdig htail
  · exact fscanfInt_signed '+' d ds pad tail hpad (Or.inl rfl) (by decide) (by decide) hv
      hdig htail
  · exact fscanfInt_signed '-' d ds pad tail hpad (Or.inr rfl) (by decide) (by decide) hv
      hdig htail

/-! ## Reading a whole file -/

theorem fscanfInt_pad (pad : List Char) (hpad : IsPad pad) :
    fscanfInt pad = (ScanResult.eof, []) := by
  have h := skipSpace_pad pad hpad []
  rw [List.append_nil] at h
  simp [fscanfInt, h, skipSpace]

/-- One call of `Fscanf` on padding and then a newline fails, having read the newline. -/
theorem fscanfInt_pad_newline (pad rest : List Char) (hpad : IsPad pad) :
    fscanfInt (pad ++ '\n' :: rest) = (ScanResult.failure "unexpected newline", rest) := by
  unfold fscanfInt
  rw [skipSpace_pad pad hpad]
  simp [skipSpace]

theorem space_not_digit (w : Char) (hw : isSpace w = true) : w.isDigit = false := by
  cases hcd : w.isDigit with
  | false => rfl
  | true => rw [(isDigit_facts w hcd).2.2.2] at hw; cases hw

/-- One turn of the reading loop on a numeral followed by a separator: the integer is
appended, and the loop goes on after the first rune of the separator. -/
theorem readLoop_numeral_gap (tok : List Char) (hnum : IsNumeral tok)
    (hv : inInt64 (numeralValue tok)) (pad : List Char) (hpad : IsPad pad) (w : Char)
    (ws tail : List Char) (hw : isSpace w = true) (acc : List Int) (fuel : Nat) :
    readLoop fscanfInt (fuel + 1) (pad ++ (tok ++ (w :: ws) ++ tail)) acc
      = readLoop fscanfInt fuel (ws ++ tail) (acc ++ [numeralValue tok]) := by
  have hscan := fscanfInt_numeral tok hnum hv pad (w :: (ws ++ tail)) hpad
    (by intro c hc
        simp only [List.head?_cons, Option.mem_def, Option.some.injEq] at hc
        subst hc
        exact space_not_digit w hw)
  simp only [List.drop_succ_cons, List.drop_zero] at hscan
  simp only [List.append_assoc, List.cons_append, readLoop, hscan]

/-- The reading loop on padding followed by a well-spaced file text. -/
theorem readLoop_wellSpaced :
    ∀ (entries : List (List Char × List Char)) (pad : List Char) (acc : List Int) (fuel : Nat),
      IsPad pad → WellSpaced entries → entries.length < fuel →
      readLoop fscanfInt fuel (pad ++ fileText entries) acc
        = some (⟨some (acc ++ entries.map (fun e => numeralValue e.1)), none⟩, []) := by
  intro entries
  induction entries with
  | nil =>
    intro pad acc fuel hpad _ hfuel
    obtain ⟨fuel, rfl⟩ : ∃ n, fuel = n + 1 := ⟨fuel - 1, by simp at hfuel; omega⟩
    simp [readLoop, fileText, fscanfInt_pad pad hpad]
  | cons e rest ih =>
    intro pad acc fuel hpad hsp hfuel
    obtain ⟨tok, g⟩ := e
    obtain ⟨hnum, hv, hg, hrest⟩ := hsp
    obtain ⟨fuel, rfl⟩ : ∃ n, fuel = n + 1 := ⟨fuel - 1, by simp at hfuel; omega⟩
    have hfuel' : rest.length < fuel := by simp at hfuel; omega
    rcases hg with ⟨w, ws, rfl, hw, hws⟩ | ⟨rfl, rfl⟩
    · have hstep := readLoop_numeral_gap tok hnum hv pad hpad w ws (fileText rest) hw acc fuel
      have hrec := ih ws (acc ++ [numeralValue tok]) fuel hws hrest hfuel'
      simp only [fileText]
      rw [hstep, hrec]
      simp
    · have hscan := fscanfInt_numeral tok hnum hv pad [] hpad (by simp)
      have hrec := ih [] (acc ++ [numeralValue tok]) fuel (by simp [IsPad]) hrest hfuel'
      simp only [List.append_nil, List.drop_nil] at hscan
      simp only [fileText, List.append_nil, List.nil_append] at hrec ⊢
      simp only [readLoop, hscan, hrec]
      simp

/-- The reading loop on padding, a well-spaced file text in which every numeral has its
separator, and then a newline: the loop fails on that newline. -/
theorem readLoop_newline :
    ∀ (entries : List (List Char × List Char)) (pad rest : List Char) (acc : List Int)
      (fuel : Nat),
      IsPad pad → WellSpaced entries → (∀ e ∈ entries, e.2 ≠ []) → entries.length < fuel →
      readLoop fscanfInt fuel (pad ++ (fileText entries ++ '\n' :: rest)) acc
        = some (⟨none, some "unexpected newline"⟩, rest) := by
  intro entries
  induction entries with
  | nil =>
    intro pad rest acc fuel hpad _ _ hfuel
    obtain ⟨fuel, rfl⟩ : ∃ n, fuel = n + 1 := ⟨fuel - 1, by simp at hfuel; omega⟩
    simp [readLoop, fileText, fscanfInt_pad_newline pad rest hpad]
  | cons e more ih =>
    intro pad rest acc fuel hpad hsp hgaps hfuel
    obtain ⟨tok, g⟩ := e
    obtain ⟨hnum, hv, hg, hmore⟩ := hsp
    obtain ⟨fuel, rfl⟩ : ∃ n, fuel = n + 1 := ⟨fuel - 1, by simp at hfuel; omega⟩
    have hfuel' : more.length < fuel := by simp at hfuel; omega
    rcases hg with ⟨w, ws, rfl, hw, hws⟩ | ⟨rfl, _⟩
    · have hstep := readLoop_numeral_gap tok hnum hv pad hpad w ws
        (fileText more ++ '\n' :: rest) hw acc fuel
      have hrec := ih ws rest (acc ++ [numeralValue tok]) fuel hws hmore
        (fun e he => hgaps e (List.mem_cons_of_mem _ he)) hfuel'
      simp only [fileText, List.append_assoc] at hstep ⊢
      rw [hstep, hrec]
    · exact absurd rfl (hgaps (tok, []) (List.mem_cons_self _ _))

/-- C10 as stated fails: the file `1`, newline, newline, `2` holds two integers separated
by a blank line, and `readData` returns `(nil, unexpected newline)`, not `[1, 2]`; and the
file `9223372036854775808` holds one decimal integer, which does not fit 64 bits, and
`readData` returns a nil slice and an error. -/
theorem blank_line_counterexample :
    readData (fun _ => Except.ok ['1', '\n', '\n', '2']) fscanfInt 10 "data1.txt"
      = some (⟨none, some "unexpected newline"⟩, some ['2']) ∧
    (readData (fun _ => Except.ok "9223372036854775808".toList) fscanfInt 10 "data1.txt").map
        (fun r => (r.1.data, r.1.err.isSome))
      = some (none, true) := by
  constructor <;> decide

/-- C10, amended: let the file hold signed decimal numerals of 64-bit integers (an
optional sign, then digits) after optional leading space without a newline, each numeral
followed by exactly one space rune (a space or a newline, say) and then possibly by more
space without a newline, where the last numeral may also end the file.  Then `readData`
returns exactly the integers the numerals write, in file order, with a nil error, for
every fuel above their number, and has read the whole file; the empty file is the case of
no numerals.  If instead a newline follows where a numeral or the end of the file is due
(a blank line, or space and then a newline), `readData` returns `(nil, unexpected
newline)`.  The text `%d` prints for an integer is a numeral that writes it. -/
theorem readData_reads_well_spaced_file (osOpen : String → Except String (List Char))
    (filename : String) (lead : List Char) (entries : List (List Char × List Char))
    (hlead : IsPad lead) (hsp : WellSpaced entries) (fuel : Nat)
    (hfuel : entries.length < fuel) :
    (osOpen filename = Except.ok (lead ++ fileText entries) →
      readData osOpen fscanfInt fuel filename
        = some (⟨some (entries.map (fun e => numeralValue e.1)), none⟩, some [])) ∧
    ((∀ e ∈ entries, e.2 ≠ []) → ∀ rest : List Char,
      osOpen filename = Except.ok (lead ++ (fileText entries ++ '\n' :: rest)) →
      readData osOpen fscanfInt fuel filename
        = some (⟨none, some "unexpected newline"⟩, some rest)) ∧
    (∀ v : Int, IsNumeral (toString v).toList ∧ numeralValue (toString v).toList = v) := by
  refine ⟨?_, ?_, numeral_toString⟩
  · intro hopen
    have h := readLoop_wellSpaced entries lead [] fuel hlead hsp hfuel
    simp [readData, hopen, h]
  · intro hgaps rest hopen
    have h := readLoop_newline entries lead rest [] fuel hlead hsp hgaps hfuel
    simp [readData, hopen, h]

/-- Witness for C10: the file ` +5`, newline, `007`, space, tab, `-0`, newline, `1721`. -/
theorem readData_reads_well_spaced_file_witness :
    IsPad [' '] ∧
    WellSpaced [(['+', '5'], ['\n']), (['0', '0', '7'], [' ', '\t']), (['-', '0'], ['\n']),
      (['1', '7', '2', '1'], [])] ∧
    readData (fun _ => Except.ok ([' '] ++ fileText [(['+', '5'], ['\n']),
        (['0', '0', '7'], [' ', '\t']), (['-', '0'], ['\n']), (['1', '7', '2', '1'], [])]))
        fscanfInt 5 "data1.txt"
      = some (⟨some [5, 7, 0, 1721], none⟩, some []) :=
  have hlead : IsPad [' '] := by
    intro c hc
    simp only [List.mem_singleton] at hc
    subst hc
    decide
  have htab : IsPad ['\t'] := by
    intro c hc
    simp only [List.mem_singleton] at hc
    subst hc
    decide
  have hnil : IsPad [] := by
    intro c hc
    cases hc
  have hsp : WellSpaced [(['+', '5'], ['\n']), (['0', '0', '7'], [' ', '\t']),
      (['-', '0'], ['\n']), (['1', '7', '2', '1'], [])] :=
    ⟨⟨['+'], ['5'], rfl, Or.inr (Or.inl rfl), by simp, by decide⟩, by decide,
      Or.inl ⟨'\n', [], rfl, by decide, hnil⟩,
      ⟨[], ['0', '0', '7'], rfl, Or.inl rfl, by simp, by decide⟩, by decide,
      Or.inl ⟨' ', ['\t'], rfl, by decide, htab⟩,
      ⟨['-'], ['0'], rfl, Or.inr (Or.inr rfl), by simp, by decide⟩, by decide,
      Or.inl ⟨'\n', [], rfl, by decide, hnil⟩,
      ⟨[], ['1', '7', '2', '1'], rfl, Or.inl rfl, by simp, by decide⟩, by decide,
      Or.inr ⟨rfl, rfl⟩, trivial⟩
  ⟨hlead, hsp, (readData_reads_well_spaced_file _ "data1.txt" [' ']
    [(['+', '5'], ['\n']), (['0', '0', '7'], [' ', '\t']), (['-', '0'], ['\n']),
      (['1', '7', '2', '1'], [])] hlead hsp 5 (by decide)).1 rfl⟩

/-! ## The file handle at the return of `readData` -/

/-- A property of the file that every scan keeps holds of the file the loop leaves. -/
theorem readLoop_invariant {σ : Type} (fscanf : σ → ScanResult × σ) (P : σ → Prop)
    (hstep : ∀ f, P f → P (fscanf f).2) :
    ∀ (fuel : Nat) (f : σ) (acc : List Int) (r : ReadResult) (f' : σ),
      P f → readLoop fscanf fuel f acc = some (r, f') → P f' := by
  intro fuel
  induction fuel with
  | zero => intro f acc r f' _ h; simp [readLoop] at h
  | succ fuel ih =>
    intro f acc r f' hP h
    have hnext := hstep f hP
    rcases hfs : fscanf f with ⟨res, g⟩
    rw [hfs] at hnext
    cases res with
    | value n =>
      simp only [readLoop, hfs] at h
      exact ih g (acc ++ [n]) r f' hnext h
    | eof =>
      simp only [readLoop, hfs, Option.some.injEq, Prod.mk.injEq] at h
      rw [← h.2]; exact hnext
    | failure msg =>
      simp only [readLoop, hfs, Option.some.injEq, Prod.mk.injEq] at h
      rw [← h.2]; exact hnext

theorem fscanfHandle_keeps_open {ρ : Type} (scan : ρ → ScanResult × ρ) (name : String)
    (f : Handle ρ) (h : f.isOpen = true ∧ f.name = name) :
    (fscanfHandle scan f).2.isOpen = true ∧ (fscanfHandle scan f).2.name = name := by
  simp [fscanfHandle, h.1, h.2]

/-- C11 as stated fails: on the empty file `readData` reaches EOF, and on the file `x` a
scan fails; on both exit paths the handle it opened is open when it returns, and is not
the closed handle. -/
theorem handle_not_released_counterexample :
    readData (openHandle (fun _ => Except.ok ([] : List Char))) (fscanfHandle fscanfInt) 1
        "data1.txt"
      = some (⟨some [], none⟩, some ⟨"data1.txt", true, []⟩) ∧
    readData (openHandle (fun _ => Except.ok ['x'])) (fscanfHandle fscanfInt) 1 "data1.txt"
      = some (⟨none, some "expected integer"⟩, some ⟨"data1.txt", true, []⟩) ∧
    (⟨"data1.txt", true, []⟩ : Handle (List Char)).isOpen
      ≠ (Handle.close (⟨"data1.txt", true, []⟩ : Handle (List Char))).isOpen := by
  refine ⟨rfl, rfl, by decide⟩

/-- C11, amended: with the file handle as explicit state, on every exit path of
`readData` after a successful open (EOF reached, or a scan failed) the handle it acquired
is still open when `readData` returns: `readData` never closes it. -/
theorem readData_leaves_file_open {ρ : Type} (disk : String → Except String ρ)
    (scan : ρ → ScanResult × ρ) (fuel : Nat) (filename : String) (content : ρ)
    (r : ReadResult) (file : Option (Handle ρ))
    (hopen : disk filename = Except.ok content)
    (hread : readData (openHandle disk) (fscanfHandle scan) fuel filename = some (r, file)) :
    ∃ f : Handle ρ, file = some f ∧ f.isOpen = true ∧ f.name = filename := by
  unfold readData openHandle at hread
  rw [hopen] at hread
  simp only at hread
  cases hloop : readLoop (fscanfHandle scan) fuel ⟨filename, true, content⟩ [] with
  | none => rw [hloop] at hread; simp at hread
  | some res =>
    obtain ⟨r', f'⟩ := res
    rw [hloop] at hread
    simp only [Option.some.injEq, Prod.mk.injEq] at hread
    have hinv := readLoop_invariant (fscanfHandle scan)
      (fun f => f.isOpen = true ∧ f.name = filename)
      (fun f hf => fscanfHandle_keeps_open scan filename f hf)
      fuel ⟨filename, true, content⟩ [] r' f' ⟨rfl, rfl⟩ hloop
    exact ⟨f', hread.2.symm, hinv.1, hinv.2⟩

/-- Witness for C11: the file `1721`, newline, `299` is read to its end and left open. -/
theorem readData_leaves_file_open_witness :
    (fun _ => Except.ok ['1', '7', '2', '1', '\n', '2', '9', '9'] :
        String → Except String (List Char)) "data1.txt"
      = Except.ok ['1', '7', '2', '1', '\n', '2', '9', '9'] ∧
    readData (openHandle (fun _ => Except.ok ['1', '7', '2', '1', '\n', '2', '9', '9']))
        (fscanfHandle fscanfInt) 3 "data1.txt"
      = some (⟨some [1721, 299], none⟩, some ⟨"data1.txt", true, []⟩) ∧
    ∃ f : Handle (List Char), some (⟨"data1.txt", true, []⟩ : Handle (List Char)) = some f ∧
      f.isOpen = true ∧ f.name = "data1.txt" :=
  ⟨rfl, rfl,
    readData_leaves_file_open (fun _ => Except.ok ['1', '7', '2', '1', '\n', '2', '9', '9'])
      fscanfInt 3 "data1.txt" ['1', '7', '2', '1', '\n', '2', '9', '9'] ⟨some [1721, 299], none⟩
      (some ⟨"data1.txt", true, []⟩) rfl rfl⟩

/-! ## Every run of `solve1` and `solve2` returns -/

/-- The function `solve1` returns, having printed its not-found line or the answer line of
two values of the dataset that sum to 2020. -/
theorem solve1Arith_returns (norm : Int → Int) (data : List Int) :
    solve1Arith norm data = Outcome.returned notFound1 ∨
    ∃ a b, a ∈ data ∧ b ∈ data ∧ norm (a + b) = 2020 ∧
      solve1Arith norm data = Outcome.returned (answer1 norm a b) := by
  by_cases h : ∃ i j, i < j ∧ Hit2 norm data i j
  · obtain ⟨i0, j0, hij, ⟨a, b, ha, hb, hs⟩, hmin⟩ := exists_first_hit2 norm data h
    exact Or.inr ⟨a, b, List.getElem?_mem ha, List.getElem?_mem hb, hs,
      solve1Arith_found norm data i0 j0 a b hij ha hb hs hmin⟩
  · exact Or.inl (solve1Arith_notFound norm data
      (fun i j hij _ hh => h ⟨i, j, hij, hh⟩))

/-- The function `solve2` returns, having printed its not-found line or the answer line of
three values of the dataset that sum to 2020. -/
theorem solve2Arith_returns (norm : Int → Int) (data : List Int) :
    solve2Arith norm data = Outcome.returned notFound2 ∨
    ∃ a b c, a ∈ data ∧ b ∈ data ∧ c ∈ data ∧ norm (norm (a + b) + c) = 2020 ∧
      solve2Arith norm data = Outcome.returned (answer2 norm a b c) := by
  by_cases h : ∃ i j k, i < j ∧ j < k ∧ Hit3 norm data i j k
  · obtain ⟨i0, j0, k0, hij, hjk, ⟨a, b, c, ha, hb, hc, hs⟩, hmin⟩ :=
      exists_first_hit3 norm data h
    exact Or.inr ⟨a, b, c, List.getElem?_mem ha, List.getElem?_mem hb,
      List.getElem?_mem hc, hs,
      solve2Arith_found norm data i0 j0 k0 a b c hij hjk ha hb hc hs hmin⟩
  · exact Or.inl (solve2Arith_notFound norm data
      (fun i j k hij hjk _ hh => h ⟨i, j, k, hij, hjk, hh⟩))

/-- C12: when `readData` has loaded the dataset `data` with a nil error, `main` returns
having printed exactly the one line of `solve1` on `data` followed by the one line of
`solve2` on the same `data`; each line is the not-found line or an answer line, and
`solve2` prints its own line also when `solve1` printed its not-found line.  This holds
under every arithmetic `norm`, so for exact integers and for Go's 64-bit `int` alike. -/
theorem main_prints_both_lines {σ : Type} (norm : Int → Int)
    (osOpen : String → Except String σ) (fscanf : σ → ScanResult × σ) (fuel : Nat)
    (data : List Int) (file : Option σ)
    (hread : readData osOpen fscanf fuel "data1.txt" = some (⟨some data, none⟩, file)) :
    ∃ out1 out2 : String,
      solve1Arith norm data = Outcome.returned out1 ∧
      solve2Arith norm data = Outcome.returned out2 ∧
      mainArith norm osOpen fscanf fuel = Outcome.returned (out1 ++ out2) ∧
      (out1 = "Could not find 2 numbers that sum up to 2020\n" ∨
        ∃ a b : Int, a ∈ data ∧ b ∈ data ∧
          out1 = "Answer1: " ++ toString (norm (a * b)) ++ "\n") ∧
      (out2 = "Could not find 3 numbers that sum up to 2020\n" ∨
        ∃ a b c : Int, a ∈ data ∧ b ∈ data ∧ c ∈ data ∧
          out2 = "Answer2: " ++ toString (norm (norm (a * b) * c)) ++ "\n") ∧
      (solve1Arith norm data
          = Outcome.returned "Could not find 2 numbers that sum up to 2020\n" →
        mainArith norm osOpen fscanf fuel
          = Outcome.returned ("Could not find 2 numbers that sum up to 2020\n" ++ out2)) := by
  have h1 : ∃ out1, solve1Arith norm data = Outcome.returned out1 ∧
      (out1 = "Could not find 2 numbers that sum up to 2020\n" ∨
        ∃ a b : Int, a ∈ data ∧ b ∈ data ∧
          out1 = "Answer1: " ++ toString (norm (a * b)) ++ "\n") := by
    rcases solve1Arith_returns norm data with h | ⟨a, b, ha, hb, _, h⟩
    · exact ⟨_, h, Or.inl rfl⟩
    · exact ⟨_, h, Or.inr ⟨a, b, ha, hb, rfl⟩⟩
  have h2 : ∃ out2, solve2Arith norm data = Outcome.returned out2 ∧
      (out2 = "Could not find 3 numbers that sum up to 2020\n" ∨
        ∃ a b c : Int, a ∈ data ∧ b ∈ data ∧ c ∈ data ∧
          out2 = "Answer2: " ++ toString (norm (norm (a * b) * c)) ++ "\n") := by
    rcases solve2Arith_returns norm data with h | ⟨a, b, c, ha, hb, hc, _, h⟩
    · exact ⟨_, h, Or.inl rfl⟩
    · exact ⟨_, h, Or.inr ⟨a, b, c, ha, hb, hc, rfl⟩⟩
  obtain ⟨out1, ho1, hl1⟩ := h1
  obtain ⟨out2, ho2, hl2⟩ := h2
  have hmain : mainArith norm osOpen fscanf fuel = Outcome.returned (out1 ++ out2) := by
    simp [mainArith, hread, mainAfterRead, ho1, ho2, Outcome.andThen]
  refine ⟨out1, out2, ho1, ho2, hmain, hl1, hl2, ?_⟩
  intro hnf
  rw [ho1] at hnf
  have : out1 = "Could not find 2 numbers that sum up to 2020\n" := by
    simpa using hnf
  rw [← this]
  exact hmain

/-- Witness for C12: the file `-9223372036854775808`, newline, `-9223372036854773788`,
newline, in 64-bit arithmetic, where the sum of the two integers wraps to 2020. -/
theorem main_prints_both_lines_witness :
    readData (fun _ => Except.ok
        "-9223372036854775808\n-9223372036854773788\n".toList) fscanfInt 3 "data1.txt"
      = some (⟨some [-9223372036854775808, -9223372036854773788], none⟩, some []) ∧
    mainArith wrap64 (fun _ => Except.ok
        "-9223372036854775808\n-9223372036854773788\n".toList) fscanfInt 3
      = Outcome.returned
          ("Answer1: 0\n" ++ "Could not find 3 numbers that sum up to 2020\n") ∧
    ∃ out1 out2 : String,
      solve1Arith wrap64 [-9223372036854775808, -9223372036854773788]
        = Outcome.returned out1 ∧
      solve2Arith wrap64 [-9223372036854775808, -9223372036854773788]
        = Outcome.returned out2 ∧
      mainArith wrap64 (fun _ => Except.ok
          "-9223372036854775808\n-9223372036854773788\n".toList) fscanfInt 3
        = Outcome.returned (out1 ++ out2) ∧
      (out1 = "Could not find 2 numbers that sum up to 2020\n" ∨
        ∃ a b : Int, a ∈ ([-9223372036854775808, -9223372036854773788] : List Int) ∧
          b ∈ ([-9223372036854775808, -9223372036854773788] : List Int) ∧
          out1 = "Answer1: " ++ toString (wrap64 (a * b)) ++ "\n") ∧
      (out2 = "Could not find 3 numbers that sum up to 2020\n" ∨
        ∃ a b c : Int, a ∈ ([-9223372036854775808, -9223372036854773788] : List Int) ∧
          b ∈ ([-9223372036854775808, -9223372036854773788] : List Int) ∧
          c ∈ ([-9223372036854775808, -9223372036854773788] : List Int) ∧
          out2 = "Answer2: " ++ toString (wrap64 (wrap64 (a * b) * c)) ++ "\n") ∧
      (solve1Arith wrap64 [-9223372036854775808, -9223372036854773788]
          = Outcome.returned "Could not find 2 numbers that sum up to 2020\n" →
        mainArith wrap64 (fun _ => Except.ok
            "-9223372036854775808\n-9223372036854773788\n".toList) fscanfInt 3
          = Outcome.returned ("Could not find 2 numbers that sum up to 2020\n" ++ out2)) :=
  ⟨by decide, by decide,
    main_prints_both_lines wrap64
      (fun _ => Except.ok "-9223372036854775808\n-9223372036854773788\n".toList) fscanfInt 3
      [-9223372036854775808, -9223372036854773788] (some []) (by decide)⟩

theorem index_eq_none_iff (data : List Int) (i : Int) :
    index data i = none ↔ (i < 0 ∨ len data ≤ i) := by
  unfold index len
  by_cases h : 0 ≤ i
  · simp only [h, if_true, List.getElem?_eq_none_iff]
    omega
  · simp only [h, if_false, true_iff]
    omega

/-- C14: for every dataset, of any length, and under either arithmetic, `solve1` and
`solve2` return: they do not panic on a slice index and do not run on for ever.  A read
`data[i]` panics exactly when `i < 0` or `len(data) ≤ i`, so every index the two functions
read is within `0 ≤ i < len(data)`. -/
theorem solvers_return_without_panic (norm : Int → Int) (data : List Int) :
    (∃ out : String, solve1Arith norm data = Outcome.returned out) ∧
    (∃ out : String, solve2Arith norm data = Outcome.returned out) ∧
    (∀ idx : Int, solve1Arith norm data ≠ Outcome.panicked idx ∧
      solve2Arith norm data ≠ Outcome.panicked idx) ∧
    solve1Arith norm data ≠ Outcome.outOfFuel ∧ solve2Arith norm data ≠ Outcome.outOfFuel ∧
    (∀ i : Int, index data i = none ↔ (i < 0 ∨ len data ≤ i)) := by
  have h1 : ∃ out : String, solve1Arith norm data = Outcome.returned out := by
    rcases solve1Arith_returns norm data with h | ⟨a, b, _, _, _, h⟩
    · exact ⟨_, h⟩
    · exact ⟨_, h⟩
  have h2 : ∃ out : String, solve2Arith norm data = Outcome.returned out := by
    rcases solve2Arith_returns norm data with h | ⟨a, b, c, _, _, _, _, h⟩
    · exact ⟨_, h⟩
    · exact ⟨_, h⟩
  obtain ⟨o1, ho1⟩ := h1
  obtain ⟨o2, ho2⟩ := h2
  refine ⟨⟨o1, ho1⟩, ⟨o2, ho2⟩, ?_, ?_, ?_, index_eq_none_iff data⟩
  · intro idx
    rw [ho1, ho2]
    exact ⟨by simp, by simp⟩
  · rw [ho1]; simp
  · rw [ho2]; simp

/-! ## 64-bit wraparound -/

theorem wrap64_of_inInt64 (x : Int) (h : inInt64 x) : wrap64 x = x := by
  unfold inInt64 at h
  unfold wrap64
  omega

/-- The sum of two 64-bit values wraps to 2020 only when it is 2020 or `2020 - 2 ^ 64`. -/
theorem wrap64_sum_eq_2020 (a b : Int) (ha : inInt64 a) (hb : inInt64 b)
    (h : wrap64 (a + b) = 2020) : a + b = 2020 ∨ a + b = 2020 - 2 ^ 64 := by
  unfold inInt64 at ha hb
  unfold wrap64 at h
  omega

theorem pair_getElem? (x y : Int) {i j : Nat} {a b : Int} (hij : i < j)
    (ha : ([x, y] : List Int)[i]? = some a) (hb : ([x, y] : List Int)[j]? = some b) :
    a = x ∧ b = y := by
  match i, j, hij, ha, hb with
  | 0, 1, _, ha, hb => exact ⟨by simpa using ha.symm, by simpa using hb.symm⟩
  | 0, j + 2, _, _, hb => simp at hb
  | i + 1, 0, h, _, _ => omega
  | i + 1, j + 1, h, ha, hb =>
    have : j ≥ 1 := by omega
    obtain ⟨j, rfl⟩ : ∃ k, j = k + 1 := ⟨j - 1, by omega⟩
    simp at hb

/-- C13 as stated fails: in `[-2^63, 2020 - 2^63]` both elements are 64-bit values and no
two positions have the exact sum 2020 (the sum is `2020 - 2^64`), yet in 64-bit arithmetic
the sum wraps to 2020 and `solve1` prints `Answer1: 0`, the wrapped product. -/
theorem wraparound_pair_counterexample :
    (∀ x ∈ ([-9223372036854775808, -9223372036854773788] : List Int), inInt64 x) ∧
    (¬ ∃ (i j : Nat) (a b : Int), i < j ∧
      ([-9223372036854775808, -9223372036854773788] : List Int)[i]? = some a ∧
      ([-9223372036854775808, -9223372036854773788] : List Int)[j]? = some b ∧
      a + b = 2020) ∧
    solve1Int64 [-9223372036854775808, -9223372036854773788]
      = Outcome.returned "Answer1: 0\n" := by
  refine ⟨by decide, ?_, by decide⟩
  rintro ⟨i, j, a, b, hij, ha, hb, hs⟩
  obtain ⟨rfl, rfl⟩ := pair_getElem? _ _ hij ha hb
  exact absurd hs (by decide)

/-- C13, amended: with the elements 64-bit signed values and `+` wrapping around, if no
two positions `i < j` have the exact sum `data[i] + data[j]` equal to 2020 or to
`2020 - 2^64`, then `solve1` prints only its not-found line and no product. -/
theorem solve1Int64_not_found (data : List Int) (hrange : ∀ x ∈ data, inInt64 x)
    (h : ¬ ∃ (i j : Nat) (a b : Int), i < j ∧ data[i]? = some a ∧ data[j]? = some b ∧
      (a + b = 2020 ∨ a + b = 2020 - 2 ^ 64)) :
    solve1Int64 data = Outcome.returned "Could not find 2 numbers that sum up to 2020\n" := by
  apply solve1Arith_notFound wrap64 data
  rintro i j hij _ ⟨a, b, ha, hb, hs⟩
  exact h ⟨i, j, a, b, hij, ha, hb,
    wrap64_sum_eq_2020 a b (hrange a (List.getElem?_mem ha)) (hrange b (List.getElem?_mem hb)) hs⟩

/-- Witness for C13: in `[2^63 - 1, 1]` the sum overflows, to `-2^63`, and is not 2020. -/
theorem solve1Int64_not_found_witness :
    (∀ x ∈ ([9223372036854775807, 1] : List Int), inInt64 x) ∧
    (¬ ∃ (i j : Nat) (a b : Int), i < j ∧
      ([9223372036854775807, 1] : List Int)[i]? = some a ∧
      ([9223372036854775807, 1] : List Int)[j]? = some b ∧
      (a + b = 2020 ∨ a + b = 2020 - 2 ^ 64)) ∧
    solve1Int64 [9223372036854775807, 1]
      = Outcome.returned "Could not find 2 numbers that sum up to 2020\n" :=
  have hrange : ∀ x ∈ ([9223372036854775807, 1] : List Int), inInt64 x := by decide
  have hno : ¬ ∃ (i j : Nat) (a b : Int), i < j ∧
      ([9223372036854775807, 1] : List Int)[i]? = some a ∧
      ([9223372036854775807, 1] : List Int)[j]? = some b ∧
      (a + b = 2020 ∨ a + b = 2020 - 2 ^ 64) := by
    rintro ⟨i, j, a, b, hij, ha, hb, hs⟩
    obtain ⟨rfl, rfl⟩ := pair_getElem? _ _ hij ha hb
    exact absurd hs (by decide)
  ⟨hrange, hno, solve1Int64_not_found [9223372036854775807, 1] hrange hno⟩

/-! ## Arithmetics that agree on the dataset -/

/-- Two arithmetics that agree on the sums and products of pairs of the dataset give the
same run of `solve1`. -/
theorem solve1Arith_congr (norm norm' : Int → Int) (data : List Int)
    (hagree : ∀ a ∈ data, ∀ b ∈ data,
      norm (a + b) = norm' (a + b) ∧ norm (a * b) = norm' (a * b)) :
    solve1Arith norm data = solve1Arith norm' data := by
  have hiff : ∀ i j, Hit2 norm data i j ↔ Hit2 norm' data i j := by
    intro i j
    constructor
    · rintro ⟨a, b, ha, hb, hs⟩
      refine ⟨a, b, ha, hb, ?_⟩
      rw [← (hagree a (List.getElem?_mem ha) b (List.getElem?_mem hb)).1]; exact hs
    · rintro ⟨a, b, ha, hb, hs⟩
      refine ⟨a, b, ha, hb, ?_⟩
      rw [(hagree a (List.getElem?_mem ha) b (List.getElem?_mem hb)).1]; exact hs
  by_cases h : ∃ i j, i < j ∧ Hit2 norm data i j
  · obtain ⟨i0, j0, hij, ⟨a, b, ha, hb, hs⟩, hmin⟩ := exists_first_hit2 norm data h
    have hab := hagree a (List.getElem?_mem ha) b (List.getElem?_mem hb)
    rw [solve1Arith_found norm data i0 j0 a b hij ha hb hs hmin,
      solve1Arith_found norm' data i0 j0 a b hij ha hb (by rw [← hab.1]; exact hs)
        (fun i j hlt hh => hmin i j hlt ((hiff i j).2 hh))]
    simp [answer1, hab.2]
  · rw [solve1Arith_notFound norm data (fun i j hij _ hh => h ⟨i, j, hij, hh⟩),
      solve1Arith_notFound norm' data (fun i j hij _ hh => h ⟨i, j, hij, (hiff i j).2 hh⟩)]

/-- Two arithmetics that agree on the sums and products of triples of the dataset give the
same run of `solve2`. -/
theorem solve2Arith_congr (norm norm' : Int → Int) (data : List Int)
    (hagree : ∀ a ∈ data, ∀ b ∈ data, ∀ c ∈ data,
      norm (norm (a + b) + c) = norm' (norm' (a + b) + c) ∧
      norm (norm (a * b) * c) = norm' (norm' (a * b) * c)) :
    solve2Arith norm data = solve2Arith norm' data := by
  have hiff : ∀ i j k, Hit3 norm data i j k ↔ Hit3 norm' data i j k := by
    intro i j k
    constructor
    · rintro ⟨a, b, c, ha, hb, hc, hs⟩
      refine ⟨a, b, c, ha, hb, hc, ?_⟩
      rw [← (hagree a (List.getElem?_mem ha) b (List.getElem?_mem hb) c
        (List.getElem?_mem hc)).1]
      exact hs
    · rintro ⟨a, b, c, ha, hb, hc, hs⟩
      refine ⟨a, b, c, ha, hb, hc, ?_⟩
      rw [(hagree a (List.getElem?_mem ha) b (List.getElem?_mem hb) c
        (List.getElem?_mem hc)).1]
      exact hs
  by_cases h : ∃ i j k, i < j ∧ j < k ∧ Hit3 norm data i j k
  · obtain ⟨i0, j0, k0, hij, hjk, ⟨a, b, c, ha, hb, hc, hs⟩, hmin⟩ :=
      exists_first_hit3 norm data h
    have habc := hagree a (List.getElem?_mem ha) b (List.getElem?_mem hb) c
      (List.getElem?_mem hc)
    rw [solve2Arith_found norm data i0 j0 k0 a b c hij hjk ha hb hc hs hmin,
      solve2Arith_found norm' data i0 j0 k0 a b c hij hjk ha hb hc
        (by rw [← habc.1]; exact hs)
        (fun i j k h1 h2 hh => hmin i j k h1 h2 ((hiff i j k).2 hh))]
    simp [answer2, habc.2]
  · rw [solve2Arith_notFound norm data
        (fun i j k hij hjk _ hh => h ⟨i, j, k, hij, hjk, hh⟩),
      solve2Arith_notFound norm' data
        (fun i j k hij hjk _ hh => h ⟨i, j, k, hij, hjk, (hiff i j k).2 hh⟩)]

theorem abs_mul_le_of_le (x y B C : Int) (hx : |x| ≤ B) (hy : |y| ≤ C) : |x * y| ≤ B * C := by
  rw [abs_mul]
  exact mul_le_mul hx hy (abs_nonneg y) (le_trans (abs_nonneg x) hx)

/-- Sums and products of two values within `2 ^ 20` do not overflow 64 bits. -/
theorem wrap64_pair_exact (a b : Int) (ha : |a| ≤ 2 ^ 20) (hb : |b| ≤ 2 ^ 20) :
    wrap64 (a + b) = a + b ∧ wrap64 (a * b) = a * b := by
  have hab := abs_le.mp (abs_mul_le_of_le a b _ _ ha hb)
  have ha' := abs_le.mp ha
  have hb' := abs_le.mp hb
  constructor
  · apply wrap64_of_inInt64
    unfold inInt64
    constructor <;> omega
  · apply wrap64_of_inInt64
    unfold inInt64
    generalize a * b = p at hab
    norm_num at hab
    constructor <;> omega

/-- Sums and products of three values within `2 ^ 20` do not overflow 64 bits. -/
theorem wrap64_triple_exact (a b c : Int) (ha : |a| ≤ 2 ^ 20) (hb : |b| ≤ 2 ^ 20)
    (hc : |c| ≤ 2 ^ 20) :
    wrap64 (wrap64 (a + b) + c) = a + b + c ∧ wrap64 (wrap64 (a * b) * c) = a * b * c := by
  obtain ⟨hs, hp⟩ := wrap64_pair_exact a b ha hb
  have habc := abs_le.mp (abs_mul_le_of_le (a * b) c _ _ (abs_mul_le_of_le a b _ _ ha hb) hc)
  have ha' := abs_le.mp ha
  have hb' := abs_le.mp hb
  have hc' := abs_le.mp hc
  rw [hs, hp]
  constructor
  · apply wrap64_of_inInt64
    unfold inInt64
    constructor <;> omega
  · apply wrap64_of_inInt64
    unfold inInt64
    generalize a * b * c = p at habc
    norm_num at habc
    constructor <;> omega

/-- C15: with Go `int` as 64-bit signed with wraparound, for every dataset whose elements
all have absolute value at most `2 ^ 20`, every sum and product that `solve1` and `solve2`
compute equals the exact integer sum and product, and the two functions print what they
print in exact arithmetic: the `Answer1`/`Answer2` value is the true product. -/
theorem small_values_do_not_overflow (data : List Int) (hsmall : ∀ x ∈ data, |x| ≤ 2 ^ 20) :
    (∀ a ∈ data, ∀ b ∈ data, wrap64 (a + b) = a + b ∧ wrap64 (a * b) = a * b) ∧
    (∀ a ∈ data, ∀ b ∈ data, ∀ c ∈ data,
      wrap64 (wrap64 (a + b) + c) = a + b + c ∧ wrap64 (wrap64 (a * b) * c) = a * b * c) ∧
    solve1Int64 data = solve1 data ∧ solve2Int64 data = solve2 data := by
  have h2 : ∀ a ∈ data, ∀ b ∈ data, wrap64 (a + b) = a + b ∧ wrap64 (a * b) = a * b :=
    fun a ha b hb => wrap64_pair_exact a b (hsmall a ha) (hsmall b hb)
  have h3 : ∀ a ∈ data, ∀ b ∈ data, ∀ c ∈ data,
      wrap64 (wrap64 (a + b) + c) = a + b + c ∧ wrap64 (wrap64 (a * b) * c) = a * b * c :=
    fun a ha b hb c hc => wrap64_triple_exact a b c (hsmall a ha) (hsmall b hb) (hsmall c hc)
  refine ⟨h2, h3, ?_, ?_⟩
  · exact solve1Arith_congr wrap64 id data (fun a ha b hb => by simpa using h2 a ha b hb)
  · exact solve2Arith_congr wrap64 id data
      (fun a ha b hb c hc => by simpa using h3 a ha b hb c hc)

/-- Witness for C15: the dataset `[1721, 979, 366, 299, 675, 1456]`. -/
theorem small_values_do_not_overflow_witness :
    (∀ x ∈ ([1721, 979, 366, 299, 675, 1456] : List Int), |x| ≤ 2 ^ 20) ∧
    (∀ a ∈ ([1721, 979, 366, 299, 675, 1456] : List Int),
      ∀ b ∈ ([1721, 979, 366, 299, 675, 1456] : List Int),
      wrap64 (a + b) = a + b ∧ wrap64 (a * b) = a * b) ∧
    (∀ a ∈ ([1721, 979, 366, 299, 675, 1456] : List Int),
      ∀ b ∈ ([1721, 979, 366, 299, 675, 1456] : List Int),
      ∀ c ∈ ([1721, 979, 366, 299, 675, 1456] : List Int),
      wrap64 (wrap64 (a + b) + c) = a + b + c ∧ wrap64 (wrap64 (a * b) * c) = a * b * c) ∧
    solve1Int64 [1721, 979, 366, 299, 675, 1456] = solve1 [1721, 979, 366, 299, 675, 1456] ∧
    solve2Int64 [1721, 979, 366, 299, 675, 1456] = solve2 [1721, 979, 366, 299, 675, 1456] :=
  have hsmall : ∀ x ∈ ([1721, 979, 366, 299, 675, 1456] : List Int), |x| ≤ 2 ^ 20 := by
    intro x hx
    simp only [List.mem_cons, List.mem_singleton, List.not_mem_nil, or_false] at hx
    rcases hx with rfl | rfl | rfl | rfl | rfl | rfl <;> norm_num
  ⟨hsmall, small_values_do_not_overflow [1721, 979, 366, 299, 675, 1456] hsmall⟩

/-! ## Hits and the order of the dataset -/

/-- Some pair of positions hits in exact arithmetic exactly when some sublist of two
elements sums to 2020. -/
theorem exists_hit2_iff_sublist (data : List Int) :
    (∃ i j, i < j ∧ Hit2 id data i j) ↔
      ∃ l : List Int, l.Sublist data ∧ l.length = 2 ∧ l.sum = 2020 := by
  constructor
  · rintro ⟨i, j, hij, a, b, ha, hb, hs⟩
    obtain ⟨hi, rfl⟩ := List.getElem?_eq_some.mp ha
    obtain ⟨hj, rfl⟩ := List.getElem?_eq_some.mp hb
    have hsub := List.map_getElem_sublist
      (show ([⟨i, hi⟩, ⟨j, hj⟩] : List (Fin data.length)).Pairwise (· < ·) by simpa using hij)
    refine ⟨_, hsub, by simp, ?_⟩
    simpa using hs
  · rintro ⟨l, hsub, hlen, hsum⟩
    obtain ⟨is, rfl, hpw⟩ := List.sublist_eq_map_getElem hsub
    rw [List.length_map] at hlen
    match is, hlen, hpw, hsum with
    | [p, q], _, hpw, hsum =>
      refine ⟨p, q, by simpa using hpw, data[p], data[q],
        List.getElem?_eq_getElem p.isLt, List.getElem?_eq_getElem q.isLt, ?_⟩
      simpa using hsum

/-- Some triple of positions hits in exact arithmetic exactly when some sublist of three
elements sums to 2020. -/
theorem exists_hit3_iff_sublist (data : List Int) :
    (∃ i j k, i < j ∧ j < k ∧ Hit3 id data i j k) ↔
      ∃ l : List Int, l.Sublist data ∧ l.length = 3 ∧ l.sum = 2020 := by
  constructor
  · rintro ⟨i, j, k, hij, hjk, a, b, c, ha, hb, hc, hs⟩
    obtain ⟨hi, rfl⟩ := List.getElem?_eq_some.mp ha
    obtain ⟨hj, rfl⟩ := List.getElem?_eq_some.mp hb
    obtain ⟨hk, rfl⟩ := List.getElem?_eq_some.mp hc
    have hsub := List.map_getElem_sublist
      (show ([⟨i, hi⟩, ⟨j, hj⟩, ⟨k, hk⟩] : List (Fin data.length)).Pairwise (· < ·) by
        simp only [List.pairwise_cons, List.mem_cons, List.mem_singleton, forall_eq_or_imp,
          forall_eq, Fin.mk_lt_mk, List.not_mem_nil, false_implies, implies_true,
          List.Pairwise.nil, and_true]
        omega)
    refine ⟨_, hsub, by simp, ?_⟩
    simp only [id] at hs
    simpa [add_assoc] using hs
  · rintro ⟨l, hsub, hlen, hsum⟩
    obtain ⟨is, rfl, hpw⟩ := List.sublist_eq_map_getElem hsub
    rw [List.length_map] at hlen
    match is, hlen, hpw, hsum with
    | [p, q, r], _, hpw, hsum =>
      simp only [List.pairwise_cons, List.mem_cons, List.mem_singleton, forall_eq_or_imp,
        forall_eq, List.not_mem_nil, false_implies, implies_true, List.Pairwise.nil,
        and_true] at hpw
      refine ⟨p, q, r, hpw.1.1, hpw.2, data[p], data[q], data[r],
        List.getElem?_eq_getElem p.isLt, List.getElem?_eq_getElem q.isLt,
        List.getElem?_eq_getElem r.isLt, ?_⟩
      simp only [id]
      simpa [add_assoc] using hsum

/-- A sublist of given length and sum of a list yields one of every permutation of it. -/
theorem sublist_sum_of_perm (n : Nat) (D D' : List Int) (hperm : D.Perm D')
    (h : ∃ l : List Int, l.Sublist D ∧ l.length = n ∧ l.sum = 2020) :
    ∃ l : List Int, l.Sublist D' ∧ l.length = n ∧ l.sum = 2020 := by
  obtain ⟨l, hsub, hlen, hsum⟩ := h
  obtain ⟨l', hl', hsub'⟩ := (List.Perm.subperm_left hperm).mp hsub.subperm
  exact ⟨l', hsub', by rw [hl'.length_eq, hlen], by rw [hl'.sum_eq, hsum]⟩

theorem notFound1_ne_answer (p : Int) : notFound1 ≠ "Answer1: " ++ toString p ++ "\n" := by
  intro h
  have h2 := congrArg (fun s => s.data.head?) h
  simp [notFound1, String.data_append] at h2

theorem notFound2_ne_answer (p : Int) : notFound2 ≠ "Answer2: " ++ toString p ++ "\n" := by
  intro h
  have h2 := congrArg (fun s => s.data.head?) h
  simp [notFound2, String.data_append] at h2

/-- The function `solve1` reports a product exactly when some pair of positions hits. -/
theorem reportsProduct1_iff (data : List Int) :
    ReportsProduct1 data ↔ ∃ i j, i < j ∧ Hit2 id data i j := by
  constructor
  · rintro ⟨p, hp⟩
    by_contra hno
    have hnf : solve1 data = Outcome.returned notFound1 :=
      solve1Arith_notFound id data (fun i j hij _ hh => hno ⟨i, j, hij, hh⟩)
    rw [hnf] at hp
    exact notFound1_ne_answer p (by simpa using hp)
  · intro h
    obtain ⟨i0, j0, hij, ⟨a, b, ha, hb, hs⟩, hmin⟩ := exists_first_hit2 id data h
    exact ⟨a * b, solve1Arith_found id data i0 j0 a b hij ha hb hs hmin⟩

/-- The function `solve2` reports a product exactly when some triple of positions hits. -/
theorem reportsProduct2_iff (data : List Int) :
    ReportsProduct2 data ↔ ∃ i j k, i < j ∧ j < k ∧ Hit3 id data i j k := by
  constructor
  · rintro ⟨p, hp⟩
    by_contra hno
    have hnf : solve2 data = Outcome.returned notFound2 :=
      solve2Arith_notFound id data (fun i j k hij hjk _ hh => hno ⟨i, j, k, hij, hjk, hh⟩)
    rw [hnf] at hp
    exact notFound2_ne_answer p (by simpa using hp)
  · intro h
    obtain ⟨i0, j0, k0, hij, hjk, ⟨a, b, c, ha, hb, hc, hs⟩, hmin⟩ :=
      exists_first_hit3 id data h
    exact ⟨a * b * c, solve2Arith_found id data i0 j0 k0 a b c hij hjk ha hb hc hs hmin⟩

/-- C16: for every dataset `D` and every permutation `D'` of it (exact integer
arithmetic), `solve1` reports a product on `D'` exactly when it does on `D`, and likewise
`solve2`.  Which product is reported may depend on the order: `[1000, 1020, 1010, 1010]`
and its permutation `[1010, 1010, 1000, 1020]` give different `Answer1` lines. -/
theorem found_does_not_depend_on_order (D D' : List Int) (hperm : D.Perm D') :
    (ReportsProduct1 D' ↔ ReportsProduct1 D) ∧
    (ReportsProduct2 D' ↔ ReportsProduct2 D) ∧
    (([1000, 1020, 1010, 1010] : List Int).Perm [1010, 1010, 1000, 1020] ∧
      solve1 [1000, 1020, 1010, 1010] = Outcome.returned "Answer1: 1020000\n" ∧
      solve1 [1010, 1010, 1000, 1020] = Outcome.returned "Answer1: 1020100\n") := by
  refine ⟨?_, ?_, by decide, rfl, rfl⟩
  · rw [reportsProduct1_iff, reportsProduct1_iff, exists_hit2_iff_sublist,
      exists_hit2_iff_sublist]
    exact ⟨sublist_sum_of_perm 2 D' D hperm.symm, sublist_sum_of_perm 2 D D' hperm⟩
  · rw [reportsProduct2_iff, reportsProduct2_iff, exists_hit3_iff_sublist,
      exists_hit3_iff_sublist]
    exact ⟨sublist_sum_of_perm 3 D' D hperm.symm, sublist_sum_of_perm 3 D D' hperm⟩

/-- Witness for C16: `[299, 5, 1721]` and its permutation `[1721, 299, 5]`. -/
theorem found_does_not_depend_on_order_witness :
    ([299, 5, 1721] : List Int).Perm [1721, 299, 5] ∧
    (ReportsProduct1 [1721, 299, 5] ↔ ReportsProduct1 [299, 5, 1721]) ∧
    (ReportsProduct2 [1721, 299, 5] ↔ ReportsProduct2 [299, 5, 1721]) ∧
    (([1000, 1020, 1010, 1010] : List Int).Perm [1010, 1010, 1000, 1020] ∧
      solve1 [1000, 1020, 1010, 1010] = Outcome.returned "Answer1: 1020000\n" ∧
      solve1 [1010, 1010, 1000, 1020] = Outcome.returned "Answer1: 1020100\n") :=
  ⟨by decide, found_does_not_depend_on_order [299, 5, 1721] [1721, 299, 5] (by decide)⟩

end Day1
